import Mathlib

/-!
Verification of the reddit webscraper core (src/webscrapers/reddit/__init__.py).

The embedding is shallow:
- Python strings are Lean strings; all character-level operations are
  implemented over the underlying character list so that every definition is
  executable by kernel reduction.
- The stdlib urllib.parse.urlparse call is modelled faithfully for the parts
  this module reads (scheme stripping, netloc, path, params/query/fragment
  removal, removal of unsafe tab/CR/LF bytes, the unbalanced-bracket
  ValueError).  The NFKC netloc check and bracketed-host validation of newer
  CPython, which can only fire on hosts that are never reddit hosts, are not
  modelled (they are treated as accepting).
- Python exceptions become Except values; RedditScraperError and a propagated
  ValueError from urlparse are kept distinct.
- HTML documents are modelled as already-parsed node trees (the selectolax
  HTMLParser step); CSS selection is implemented over those trees.
-/

/-! ## Python string primitives -/

/-- Whitespace characters recognised by the Python str.strip and str.split
methods (the common ASCII plus the Latin-1 whitespace code points). -/
def pyIsSpace (c : Char) : Bool :=
  c = ' ' || c = '\t' || c = '\n' || c = '\r' || c = '\x0b' || c = '\x0c' ||
  c = '\x1c' || c = '\x1d' || c = '\x1e' || c = '\x1f' || c = '\x85' || c = '\xa0'

/-- Python str.strip on a character list. -/
def pyStripList (cs : List Char) : List Char :=
  ((cs.dropWhile pyIsSpace).reverse.dropWhile pyIsSpace).reverse

/-- Python str.strip (whitespace on both ends). -/
def pyStrip (s : String) : String :=
  String.mk (pyStripList s.data)

/-- ASCII lowercasing of one character, as Python str.lower acts on ASCII. -/
def lowerChar (c : Char) : Char :=
  if 'A' ≤ c && c ≤ 'Z' then Char.ofNat (c.toNat + 32) else c

/-- Python str.lower (ASCII part; the inputs lowercased by this module are
either ASCII-shaped ids or compared against ASCII literals, where non-ASCII
case folding cannot change the outcome). -/
def toLowerStr (s : String) : String :=
  String.mk (s.data.map lowerChar)

/-- Bool-valued list prefix test. -/
def listIsPrefix : List Char → List Char → Bool
  | [], _ => true
  | _ :: _, [] => false
  | a :: as, b :: bs => a = b && listIsPrefix as bs

/-- Bool-valued contiguous sublist test (haystack first). -/
def containsSub (hay needle : List Char) : Bool :=
  if listIsPrefix needle hay then true
  else
    match hay with
    | [] => false
    | _ :: t => containsSub t needle

/-- Python substring containment, needle in s. -/
def strContains (s t : String) : Bool :=
  containsSub s.data t.data

/-- Python str.startswith. -/
def strStartsWith (s t : String) : Bool :=
  listIsPrefix t.data s.data

/-- Python str.endswith. -/
def strEndsWith (s t : String) : Bool :=
  listIsPrefix t.data.reverse s.data.reverse

/-- Python s[1:]. -/
def strDrop1 (s : String) : String :=
  String.mk s.data.tail

/-- Split a character list at every occurrence of sep, keeping empty pieces,
matching Python str.split with an explicit separator. -/
def splitCharAux (sep : Char) : List Char → List Char → List String
  | [], acc => [String.mk acc.reverse]
  | c :: cs, acc =>
      if c = sep then String.mk acc.reverse :: splitCharAux sep cs []
      else splitCharAux sep cs (c :: acc)

/-- Python str.split with an explicit one-character separator. -/
def splitChar (sep : Char) (s : String) : List String :=
  splitCharAux sep s.data []

/-- Split at the first occurrence of sep, if any (Python str.split with
maxsplit 1, restricted to the two-pieces case). -/
def splitFirst (sep : Char) : List Char → Option (List Char × List Char)
  | [] => none
  | c :: rest =>
      if c = sep then some ([], rest)
      else (splitFirst sep rest).map (fun pr => (c :: pr.1, pr.2))

/-- Whitespace split dropping empty chunks (Python str.split with no
argument), used for the class-token list of a node. -/
def splitWsAux : List Char → List Char → List String
  | [], acc => if acc.isEmpty then [] else [String.mk acc.reverse]
  | c :: cs, acc =>
      if pyIsSpace c then
        if acc.isEmpty then splitWsAux cs []
        else String.mk acc.reverse :: splitWsAux cs []
      else splitWsAux cs (c :: acc)

/-- Python str.split with no argument. -/
def splitWs (s : String) : List String :=
  splitWsAux s.data []

def isAsciiAlpha (c : Char) : Bool :=
  ('a' ≤ c && c ≤ 'z') || ('A' ≤ c && c ≤ 'Z')

def isAsciiDigit (c : Char) : Bool :=
  '0' ≤ c && c ≤ '9'

def isAsciiAlphanum (c : Char) : Bool :=
  isAsciiAlpha c || isAsciiDigit c

def digitVal (c : Char) : Nat := c.toNat - '0'.toNat

/-- Digit-run evaluation for the Python int constructor: digits with single
underscores allowed between digits. The first character is checked to be a
digit by the caller. -/
def digitsUVal : List Char → Nat → Option Nat
  | [], acc => some acc
  | '_' :: rest, acc =>
      match rest with
      | d :: rest2 =>
          if isAsciiDigit d then digitsUVal rest2 (acc * 10 + digitVal d) else none
      | [] => none
  | d :: rest, acc =>
      if isAsciiDigit d then digitsUVal rest (acc * 10 + digitVal d) else none

/-- Python int(s) on a decimal string: surrounding whitespace stripped, one
optional sign, ASCII digits with single interior underscores. Returns none
where Python raises ValueError. (Non-ASCII digits are not modelled.) -/
def pyInt (s : String) : Option Int :=
  let cs := pyStripList s.data
  match cs with
  | '+' :: rest =>
      match rest with
      | d :: _ =>
          if isAsciiDigit d then (digitsUVal rest 0).map (fun n => (n : Int)) else none
      | [] => none
  | '-' :: rest =>
      match rest with
      | d :: _ =>
          if isAsciiDigit d then (digitsUVal rest 0).map (fun n => -(n : Int)) else none
      | [] => none
  | d :: _ =>
      if isAsciiDigit d then (digitsUVal cs 0).map (fun n => (n : Int)) else none
  | [] => none

/-! ## The urlparse model

Models urllib.parse.urlparse for the two components this module reads,
netloc and path.  Steps, in CPython order: strip leading C0-control/space
characters, remove every tab, CR and LF, strip a well-formed scheme prefix,
take the netloc after a leading double slash up to the first slash, question
mark or hash, raise ValueError on an unbalanced square bracket in the netloc,
drop the fragment, drop the query, and split params off the last path
segment. -/

structure UrlParts where
  netloc : String
  path : String
deriving Repr, DecidableEq

/-- Characters allowed inside a URL scheme after the leading letter. -/
def schemeChar (c : Char) : Bool :=
  isAsciiAlpha c || isAsciiDigit c || c = '+' || c = '-' || c = '.'

/-- Strip a scheme prefix: a colon at a positive index, a leading ASCII
letter, and scheme characters in between; otherwise leave the input alone. -/
def dropScheme (cs : List Char) : List Char :=
  match splitFirst ':' cs with
  | none => cs
  | some (before, after) =>
      match before with
      | [] => cs
      | b :: rest => if isAsciiAlpha b && rest.all schemeChar then after else cs

/-- Take netloc characters up to the first slash, question mark or hash;
returns the netloc and the remainder starting at the delimiter. -/
def takeNetloc : List Char → List Char × List Char
  | [] => ([], [])
  | c :: cs =>
      if c = '/' || c = '?' || c = '#' then ([], c :: cs)
      else
        let pr := takeNetloc cs
        (c :: pr.1, pr.2)

/-- Keep everything strictly before the first occurrence of stop (the whole
list when stop does not occur), matching Python split(stop, 1)[0]. -/
def takeUntilChar (stop : Char) : List Char → List Char
  | [] => []
  | c :: cs => if c = stop then [] else c :: takeUntilChar stop cs

/-- The params split of urlparse: drop everything from the first semicolon of
the last slash-separated segment. -/
def splitParams (cs : List Char) : List Char :=
  if cs.contains '/' then
    let rev := cs.reverse
    let lastsegRev := rev.takeWhile (fun c => c ≠ '/')
    let prefRev := rev.dropWhile (fun c => c ≠ '/')
    prefRev.reverse ++ takeUntilChar ';' lastsegRev.reverse
  else takeUntilChar ';' cs

/-- The urlparse model; returns the netloc and path, or the ValueError
message for an unbalanced bracket in the netloc. -/
def pyUrlparse (url : String) : Except String UrlParts :=
  let cs0 := url.data.dropWhile (fun c => decide (c.toNat ≤ 32))
  let cs1 := cs0.filter (fun c => !(c = '\t' || c = '\r' || c = '\n'))
  let rest := dropScheme cs1
  let nr : List Char × List Char :=
    match rest with
    | '/' :: '/' :: r => takeNetloc r
    | _ => ([], rest)
  let netloc := nr.1
  if (netloc.contains '[' && !netloc.contains ']') ||
     (netloc.contains ']' && !netloc.contains '[') then
    .error "Invalid IPv6 URL"
  else
    let afterFrag := takeUntilChar '#' nr.2
    let beforeQuery := takeUntilChar '?' afterFrag
    .ok ⟨String.mk netloc, String.mk (splitParams beforeQuery)⟩

/-! ## URL classifier (section 4.1 of the spec) -/

/-- The post id shape, the regex of five to eight ASCII alphanumerics
anchored at both ends.  (Path segments reaching this test cannot contain a
newline, urlparse removes them, so the trailing-newline quirk of the Python
dollar anchor cannot fire.) -/
def postIdShape (s : String) : Bool :=
  decide (5 ≤ s.data.length) && decide (s.data.length ≤ 8) && s.data.all isAsciiAlphanum

/-- The comment id shape, six to ten ASCII alphanumerics. -/
def commentIdShape (s : String) : Bool :=
  decide (6 ≤ s.data.length) && decide (s.data.length ≤ 10) && s.data.all isAsciiAlphanum

def SHORTLINK_HOSTS : List String := ["redd.it", "www.redd.it"]

/-- Lowercase the netloc and strip a port suffix. -/
def normalize_netloc (netloc : String) : String :=
  let low := toLowerStr netloc
  match splitFirst ':' low.data with
  | some (before, _) => String.mk before
  | none => low

/-- Domain acceptance: a shortlink host, reddit.com itself, or a subdomain. -/
def parse_reddit_domain (parsed_netloc : String) : Bool :=
  let n := normalize_netloc parsed_netloc
  SHORTLINK_HOSTS.contains n || decide (n = "reddit.com") || strEndsWith n ".reddit.com"

/-- Path segments: split on slash, dropping empty segments. -/
def split_path (path : String) : List String :=
  (splitChar '/' path).filter (fun seg => seg ≠ "")

inductive RedditKind where
  | frontpage
  | popular
  | all
  | subreddit
  | user
  | post
  | comment
deriving Repr, DecidableEq

structure RedditUrlInfo where
  kind : RedditKind
  original_url : String
  subreddit : Option String
  username : Option String
  post_id : Option String
  comment_id : Option String
deriving Repr, DecidableEq

/-- Derived property has_post of RedditUrlInfo. -/
def RedditUrlInfo.has_post (info : RedditUrlInfo) : Bool :=
  info.post_id.isSome

/-- The two error kinds that can escape get_reddit_id_from_url: the scraper
error of the module itself, and a ValueError propagated from urlparse. -/
inductive ScrapeErr where
  | scraper (msg : String)
  | valueError (msg : String)
deriving Repr, DecidableEq

/-- Shortlink matcher.  A parser returns ok none when it does not apply,
ok (some info) on a match, and error where Python raises. -/
def parse_shortlink (netloc : String) (segments : List String) (url : String) :
    Except ScrapeErr (Option RedditUrlInfo) :=
  if !SHORTLINK_HOSTS.contains netloc then .ok none
  else
    let slug := segments.headD ""
    if !postIdShape slug then .error (.scraper "Shortlink missing a valid post ID")
    else .ok (some ⟨.post, url, none, none, some (toLowerStr slug), none⟩)

/-- Frontpage matcher: zero path segments. -/
def parse_frontpage (_netloc : String) (segments : List String) (url : String) :
    Except ScrapeErr (Option RedditUrlInfo) :=
  if segments.isEmpty then .ok (some ⟨.frontpage, url, none, none, none, none⟩)
  else .ok none

/-- Subreddit-path matcher; covers popular, all, post and comment permalinks,
and plain subreddit paths.  Kind is comment exactly when a comment id was
captured (Python truthiness: a captured id has at least six characters, so it
is never the empty string). -/
def parse_subreddit_path (_netloc : String) (segments : List String) (url : String) :
    Except ScrapeErr (Option RedditUrlInfo) :=
  match segments with
  | s0 :: s1 :: rest =>
      if s0 ≠ "r" then .ok none
      else if toLowerStr s1 = "popular" then .ok (some ⟨.popular, url, none, none, none, none⟩)
      else if toLowerStr s1 = "all" then .ok (some ⟨.all, url, none, none, none, none⟩)
      else
        match rest with
        | s2 :: s3 :: rest2 =>
            if s2 = "comments" then
              if !postIdShape s3 then .error (.scraper "URL contains an invalid post ID")
              else
                let comment_id : Option String :=
                  match rest2 with
                  | _s4 :: s5 :: _ => if commentIdShape s5 then some (toLowerStr s5) else none
                  | _ => none
                let kind : RedditKind := if comment_id.isSome then .comment else .post
                .ok (some ⟨kind, url, some s1, none, some (toLowerStr s3), comment_id⟩)
            else .ok (some ⟨.subreddit, url, some s1, none, none, none⟩)
        | _ => .ok (some ⟨.subreddit, url, some s1, none, none, none⟩)
  | _ => .ok none

/-- User-path matcher. -/
def parse_user_path (_netloc : String) (segments : List String) (url : String) :
    Except ScrapeErr (Option RedditUrlInfo) :=
  match segments with
  | s0 :: s1 :: _ =>
      if s0 = "user" || s0 = "u" then .ok (some ⟨.user, url, none, none, some s1, none⟩)
      else .ok none
  | _ => .ok none

/-- The fixed matcher loop of the classifier: try shortlink, frontpage,
subreddit path and user path in order; the first match wins, a raising
matcher aborts, and no match is the unsupported-pattern error. -/
def run_reddit_matchers (netloc : String) (segments : List String) (url : String) :
    Except ScrapeErr RedditUrlInfo :=
  match parse_shortlink netloc segments url with
  | .error e => .error e
  | .ok (some info) => .ok info
  | .ok none =>
    match parse_frontpage netloc segments url with
    | .error e => .error e
    | .ok (some info) => .ok info
    | .ok none =>
      match parse_subreddit_path netloc segments url with
      | .error e => .error e
      | .ok (some info) => .ok info
      | .ok none =>
        match parse_user_path netloc segments url with
        | .error e => .error e
        | .ok (some info) => .ok info
        | .ok none => .error (.scraper "URL does not match a supported Reddit pattern")

/-- The classifier: empty check, urlparse, domain check, then the fixed
matcher order shortlink, frontpage, subreddit path, user path. -/
def get_reddit_id_from_url (url : String) : Except ScrapeErr RedditUrlInfo :=
  if pyStrip url = "" then .error (.scraper "A non-empty Reddit URL is required")
  else
    match pyUrlparse (pyStrip url) with
    | .error e => .error (.valueError e)
    | .ok parts =>
        if !parse_reddit_domain parts.netloc then
          .error (.scraper "URL does not belong to reddit")
        else
          run_reddit_matchers (normalize_netloc parts.netloc) (split_path parts.path) url


/-! ## The markup tree model

A parsed HTML document is a tree of element and text nodes.  Attributes are
the attribute list of a node; a valueless attribute behaves identically to an
absent one at every read site of this module (truthiness or equality against
a non-empty literal), so attributes are modelled as key-value pairs. -/

inductive HNode where
  | elem (tag : String) (attrs : List (String × String)) (children : List HNode)
  | text (s : String)
deriving Repr

def HNode.childNodes : HNode → List HNode
  | .elem _ _ cs => cs
  | .text _ => []

def lookupFirst : List (String × String) → String → Option String
  | [], _ => none
  | (k, v) :: rest, key => if k = key then some v else lookupFirst rest key

/-- Attribute lookup on a node (text nodes carry no attributes). -/
def attrGet (n : HNode) (key : String) : Option String :=
  match n with
  | .elem _ attrs _ => lookupFirst attrs key
  | .text _ => none

/-- The class attribute of the node, with the Python `or ""` default. -/
def classAttr (n : HNode) : String :=
  (attrGet n "class").getD ""

def tagIs (n : HNode) (t : String) : Bool :=
  match n with
  | .elem tag _ _ => tag = t
  | .text _ => false

/-- CSS class-token membership: the token occurs in the whitespace-separated
class list of the node. -/
def hasClassToken (cls tok : String) : Bool :=
  (splitWs cls).contains tok

/-- CSS simple selector tag.class1.class2 … as a predicate. -/
def selTagClasses (tag : String) (toks : List String) (n : HNode) : Bool :=
  tagIs n tag && toks.all (fun t => hasClassToken (classAttr n) t)

/-- CSS selector tag[key=value] as a predicate. -/
def selAttrEq (tag key v : String) (n : HNode) : Bool :=
  tagIs n tag && decide (attrGet n key = some v)

mutual
/-- First node of the subtree, in document (preorder) order, satisfying p.
The searched subtree includes its root. -/
def findFirst (p : HNode → Bool) : HNode → Option HNode
  | .text s => if p (.text s) then some (.text s) else none
  | .elem t a cs =>
      if p (.elem t a cs) then some (.elem t a cs) else findFirstL p cs

def findFirstL (p : HNode → Bool) : List HNode → Option HNode
  | [] => none
  | c :: cs =>
      match findFirst p c with
      | some m => some m
      | none => findFirstL p cs
end

mutual
/-- First node, in document order, matching the descendant selector A B: the
node matches b and some proper ancestor inside the searched subtree matches
a.  The flag records whether such an ancestor has been passed. -/
def findDesc1 (a p : HNode → Bool) (flag : Bool) : HNode → Option HNode
  | .text s => if flag && p (.text s) then some (.text s) else none
  | .elem t at_ cs =>
      let n := HNode.elem t at_ cs
      if flag && p n then some n else findDesc1L a p (flag || a n) cs

def findDesc1L (a p : HNode → Bool) (flag : Bool) : List HNode → Option HNode
  | [] => none
  | c :: cs =>
      match findDesc1 a p flag c with
      | some m => some m
      | none => findDesc1L a p flag cs
end

mutual
/-- First node matching the two-ancestor descendant selector A B C.  The
flags record, for the current position, whether an A ancestor has been
passed, and whether a B ancestor below an A ancestor has been passed. -/
def findDesc2 (a b p : HNode → Bool) (f1 f2 : Bool) : HNode → Option HNode
  | .text s => if f2 && p (.text s) then some (.text s) else none
  | .elem t at_ cs =>
      let n := HNode.elem t at_ cs
      if f2 && p n then some n
      else findDesc2L a b p (f1 || a n) (f2 || (f1 && b n)) cs

def findDesc2L (a b p : HNode → Bool) (f1 f2 : Bool) : List HNode → Option HNode
  | [] => none
  | c :: cs =>
      match findDesc2 a b p f1 f2 c with
      | some m => some m
      | none => findDesc2L a b p f1 f2 cs
end

mutual
/-- The text chunks of the subtree in document order (the text nodes the
selectolax text method concatenates). -/
def texts : HNode → List String
  | .text s => [s]
  | .elem _ _ cs => textsL cs

def textsL : List HNode → List String
  | [] => []
  | c :: cs => texts c ++ textsL cs
end

/-- The selectolax text method: concatenation of all text chunks of the
subtree, each chunk stripped when strip is true. -/
def textContent (strip : Bool) (n : HNode) : String :=
  String.join (if strip then (texts n).map pyStrip else texts n)

mutual
/-- All nodes of the subtree, root included (membership in this list is the
subtree relation used by the parent-anchor theorems). -/
def subnodes : HNode → List HNode
  | .text s => [.text s]
  | .elem t a cs => HNode.elem t a cs :: subnodesL cs

def subnodesL : List HNode → List HNode
  | [] => []
  | c :: cs => subnodes c ++ subnodesL cs
end

mutual
/-- Structural serialization of a node back to markup text (attribute
escaping and void elements are not modelled; no claim inspects the
serialized string). -/
def nodeHtml : HNode → String
  | .text s => s
  | .elem t a cs =>
      "<" ++ t ++ String.join (a.map (fun kv => " " ++ kv.1 ++ "=" ++ kv.2)) ++ ">" ++
        nodeHtmlL cs ++ "</" ++ t ++ ">"

def nodeHtmlL : List HNode → String
  | [] => ""
  | c :: cs => nodeHtml c ++ nodeHtmlL cs
end

/-! ## Comment and post records (section 3 of the spec) -/

/-- The scalar fields of a comment.  Timestamps are modelled as the validated
datetime attribute string.  The content_markdown and edited fields exist on
the record but are never assigned by this module. -/
structure RedditCommentFields where
  comment_id : Option String
  post_id : Option String
  parent_id : Option String
  author : Option String
  date_posted : Option String
  content_html : Option String
  content_markdown : Option String
  content_text : Option String
  score : Option Int
  edited : Option String
  deleted : Bool
  removed : Bool
  is_submitter : Bool
  distinguished : Option String
  stickied : Bool
  permalink : Option String
  depth : Option Nat
deriving Repr, DecidableEq

/-- A comment: its scalar fields and its owned children, in document order. -/
inductive RedditCommentData where
  | mk (fields : RedditCommentFields) (children : List RedditCommentData)
deriving Repr

def RedditCommentData.fields : RedditCommentData → RedditCommentFields
  | .mk f _ => f

def RedditCommentData.children : RedditCommentData → List RedditCommentData
  | .mk _ cs => cs

def RedditCommentData.comment_id (c : RedditCommentData) : Option String :=
  c.fields.comment_id

def RedditCommentData.post_id (c : RedditCommentData) : Option String :=
  c.fields.post_id

def RedditCommentData.parent_id (c : RedditCommentData) : Option String :=
  c.fields.parent_id

def RedditCommentData.depth (c : RedditCommentData) : Option Nat :=
  c.fields.depth

def RedditCommentData.deleted (c : RedditCommentData) : Bool :=
  c.fields.deleted

def RedditCommentData.removed (c : RedditCommentData) : Bool :=
  c.fields.removed

def RedditCommentData.distinguished (c : RedditCommentData) : Option String :=
  c.fields.distinguished

/-! ## Flat tree indexer (section 4.5 of the spec) -/

/-- Append a comment to the group of its key in the insertion-ordered
mapping, creating the group at the end on first sight of the key; this is
the Python dict update of build_comment_tree. -/
def dictAppend (tree : List (Option String × List RedditCommentData))
    (key : Option String) (c : RedditCommentData) :
    List (Option String × List RedditCommentData) :=
  match tree with
  | [] => [(key, [c])]
  | (k, l) :: rest =>
      if k = key then (k, l ++ [c]) :: rest
      else (k, l) :: dictAppend rest key c

/-- build_comment_tree: group a flat comment list by parent_id. -/
def build_comment_tree (comments : List RedditCommentData) :
    List (Option String × List RedditCommentData) :=
  comments.foldl (fun tree c => dictAppend tree c.parent_id c) []

/-- Mapping lookup on the insertion-ordered association list. -/
def assocLookup (tree : List (Option String × List RedditCommentData))
    (key : Option String) : Option (List RedditCommentData) :=
  match tree with
  | [] => none
  | (k, l) :: rest => if k = key then some l else assocLookup rest key

/-! ## Field extractors (section 4.2 of the spec) -/

/-- Whitespace normalization of extracted text (used for the post title). -/
def normalize_text (t : Option String) : Option String :=
  t.map (fun s => String.intercalate " " (splitWs s))

/-- Extract the id from a reddit fullname such as t3_abc123: the part after
the first underscore, lowercased; none when there is no underscore or the
input is absent or empty. -/
def extract_fullname_id (fullname : Option String) : Option String :=
  match fullname with
  | none => none
  | some s =>
      if s = "" then none
      else
        match splitFirst '_' s.data with
        | some (_, suffix) => some (toLowerStr (String.mk suffix))
        | none => none

/-- Modelled from the spec: the stdlib datetime.fromisoformat acceptance
test, which is outside this repository.  Spec 4.2: a machine-readable
datetime attribute, unparsable or absent yields absent.  Modelled as the
ISO date prefix shape YYYY-MM-DD. -/
def isoDateShape (s : String) : Bool :=
  match s.data with
  | y1 :: y2 :: y3 :: y4 :: '-' :: m1 :: m2 :: '-' :: d1 :: d2 :: _ =>
      isAsciiDigit y1 && isAsciiDigit y2 && isAsciiDigit y3 && isAsciiDigit y4 &&
      isAsciiDigit m1 && isAsciiDigit m2 && isAsciiDigit d1 && isAsciiDigit d2
  | _ => false

/-- Parse the datetime attribute of a time element; none when the element or
attribute is missing, empty, or fails the datetime parse. -/
def parse_timestamp (time_element : Option HNode) : Option String :=
  match time_element with
  | none => none
  | some el =>
      match attrGet el "datetime" with
      | none => none
      | some s => if s = "" then none else if isoDateShape s then some s else none

/-- Parse the score from the title attribute of a score element; none when
missing, empty or not an integer. -/
def parse_score (score_element : Option HNode) : Option Int :=
  match score_element with
  | none => none
  | some el =>
      match attrGet el "title" with
      | none => none
      | some t => if t = "" then none else pyInt t

/-- Author resolution for a comment: the text of the author anchor when one
exists, otherwise the deleted sentinel when the tagline carries it, otherwise
the deleted sentinel when the comment is already known deleted, otherwise
absent. -/
def extract_comment_author (entry : HNode) (is_deleted : Bool) : Option String :=
  match findFirst (selTagClasses "a" ["author"]) entry with
  | some author_elem => some (textContent true author_elem)
  | none =>
      match findFirst (selTagClasses "p" ["tagline"]) entry with
      | some tagline =>
          if strContains (textContent false tagline) "[deleted]" then some "[deleted]"
          else if is_deleted then some "[deleted]" else none
      | none => if is_deleted then some "[deleted]" else none

/-- The body node of an entry: the first div.md under a div.usertext-body. -/
def commentBody (entry : HNode) : Option HNode :=
  findDesc1 (selTagClasses "div" ["usertext-body"]) (selTagClasses "div" ["md"]) false entry

/-- Content resolution: the body node under div.usertext-body div.md; its
markup and stripped text, and the deleted and removed sentinels.  Returns
(content_html, content_text, is_deleted, is_removed). -/
def extract_comment_content (entry : HNode) :
    Option String × Option String × Bool × Bool :=
  match commentBody entry with
  | none => (none, none, false, false)
  | some content_div =>
      let content_text := textContent true content_div
      (some (nodeHtml content_div), some content_text,
        decide (content_text = "[deleted]"), decide (content_text = "[removed]"))

/-- Metadata: distinguished (the moderator marker is checked before the admin
marker, both as raw substrings of the class attribute), the permalink anchor,
and the stickied marker.  Returns (distinguished, permalink, stickied). -/
def extract_comment_metadata (node entry : HNode) :
    Option String × Option String × Bool :=
  let node_class := classAttr node
  let distinguished : Option String :=
    if strContains node_class "moderator" then some "moderator"
    else if strContains node_class "admin" then some "admin"
    else none
  let stickied := strContains node_class "stickied"
  let permalink : Option String :=
    match findFirst (selAttrEq "a" "data-event-action" "permalink") entry with
    | some el => attrGet el "href"
    | none => none
  (distinguished, permalink, stickied)

/-- Parent id: the fragment of the href of the first parent anchor of the
entry, when that href starts with a hash. -/
def extract_parent_id (entry : HNode) : Option String :=
  match findFirst (selAttrEq "a" "data-event-action" "parent") entry with
  | some link =>
      match attrGet link "href" with
      | some href =>
          if href ≠ "" && strStartsWith href "#" then some (strDrop1 href) else none
      | none => none
  | none => none

/-- Context data pulled out of one comment node. -/
structure CommentParseContext where
  comment_id : Option String
  author : Option String
  score : Option Int
  date_posted : Option String
  content_html : Option String
  content_text : Option String
  permalink : Option String
  parent_id : Option String
  is_deleted : Bool
  is_removed : Bool
  is_submitter : Bool
  distinguished : Option String
  stickied : Bool
deriving Repr, DecidableEq

/-- The entry div of a comment node. -/
def commentEntry (node : HNode) : Option HNode :=
  findFirst (selTagClasses "div" ["entry"]) node

/-- The structural deleted class marker of a comment node (a raw substring
check of the class attribute, as in the source). -/
def structuralDeletedMarker (node : HNode) : Bool :=
  strContains (classAttr node) "deleted"

/-- The stripped body text of a comment node, through its entry div. -/
def commentBodyText (node : HNode) : Option String :=
  (commentEntry node).bind (fun entry => (commentBody entry).map (textContent true))

/-- Build the parse context of one comment node; none when the node has no
usable fullname id or no entry div.  The deleted flag is the structural
deleted class marker or the content sentinel. -/
def build_comment_context (node : HNode) : Option CommentParseContext :=
  match extract_fullname_id (attrGet node "data-fullname") with
  | none => none
  | some comment_id =>
      if comment_id = "" then none
      else
        let node_class := classAttr node
        let is_deleted_class := strContains node_class "deleted"
        match commentEntry node with
        | none => none
        | some entry =>
            let cont := extract_comment_content entry
            let is_deleted := is_deleted_class || cont.2.2.1
            let meta := extract_comment_metadata node entry
            some ⟨some comment_id,
              extract_comment_author entry is_deleted,
              parse_score (findFirst (selTagClasses "span" ["score", "unvoted"]) entry),
              parse_timestamp (findFirst (selTagClasses "time" ["live-timestamp"]) entry),
              cont.1, cont.2.1,
              meta.2.1,
              extract_parent_id entry,
              is_deleted, cont.2.2.2,
              strContains node_class "submitter",
              meta.1, meta.2.2⟩

/-- Direct comment children of a sitetable container: the direct child
element nodes that are div elements whose class attribute contains both the
thing and comment substrings. -/
def get_direct_comment_children (container : HNode) : List HNode :=
  container.childNodes.filter (fun c =>
    tagIs c "div" && strContains (classAttr c) "thing" && strContains (classAttr c) "comment")

/-! ## Comment tree builder (section 4.3 of the spec) -/

mutual
/-- Node count of a subtree (the recursion measure of the comment builder). -/
def hsize : HNode → Nat
  | .text _ => 1
  | .elem _ _ cs => 1 + hsizeL cs

def hsizeL : List HNode → Nat
  | [] => 0
  | c :: cs => hsize c + hsizeL cs
end

/-- The recursive comment builder, with an explicit recursion budget.  The
budget weakly exceeds the size of every node the recursion can reach when
started at hsize of the root (each recursive call descends at least two
levels of the tree), so the zero-budget branch is unreachable from
parse_comment_node below; parse_comment_fuel_irrelevant makes this exact. -/
def parse_comment_node_fuel : Nat → HNode → Option String → Nat → Option RedditCommentData
  | 0, _, _, _ => none
  | fuel + 1, node, post_id, depth =>
      if attrGet node "data-type" = some "morechildren" then none
      else
        match build_comment_context node with
        | none => none
        | some ctx =>
            let children : List RedditCommentData :=
              match findDesc1 (selTagClasses "div" ["child"]) (selTagClasses "div" ["sitetable"])
                  false node with
              | none => []
              | some container =>
                  (get_direct_comment_children container).filterMap
                    (fun child => parse_comment_node_fuel fuel child post_id (depth + 1))
            some (.mk
              ⟨ctx.comment_id, post_id, ctx.parent_id, ctx.author, ctx.date_posted,
               ctx.content_html, none, ctx.content_text, ctx.score, none,
               ctx.is_deleted, ctx.is_removed, ctx.is_submitter, ctx.distinguished,
               ctx.stickied, ctx.permalink, some depth⟩
              children)

/-- Parse a single comment node: rejects load-more placeholders and nodes
without context; recurses into the direct child container with depth plus
one and the same post id. -/
def parse_comment_node (node : HNode) (post_id : Option String) (depth : Nat) :
    Option RedditCommentData :=
  parse_comment_node_fuel (hsize node) node post_id depth

/-! ## Post assembler (section 4.4 of the spec) -/

structure PostParseContext where
  post_id : Option String
  title : Option String
  author : Option String
  subreddit : Option String
  score : Option Int
  url : Option String
  permalink : Option String
  content_html : Option String
  date_posted : Option String
  num_comments : Option Int
  is_nsfw : Bool
  is_spoiler : Bool
  domain : Option String
  flair : Option String
deriving Repr, DecidableEq

/-- Post author: the author anchor under the tagline, else the deleted
sentinel when the tagline text carries it. -/
def extract_post_author (post_node : HNode) : Option String :=
  match findDesc1 (selTagClasses "p" ["tagline"]) (selTagClasses "a" ["author"])
      false post_node with
  | some author_elem => some (textContent true author_elem)
  | none =>
      match findFirst (selTagClasses "p" ["tagline"]) post_node with
      | some tagline =>
          if strContains (textContent false tagline) "[deleted]" then some "[deleted]"
          else none
      | none => none

/-- Number of comments from the data-comments-count attribute. -/
def extract_post_num_comments (post_node : HNode) : Option Int :=
  match attrGet post_node "data-comments-count" with
  | some s => if s = "" then pyInt "" |> fun _ => none else pyInt s
  | none => none

/-- Build the post context from the post node. -/
def build_post_context (post_node : HNode) : PostParseContext :=
  let title_elem := findFirst (selTagClasses "a" ["title"]) post_node
  let flair_elem := findFirst (selTagClasses "span" ["linkflairlabel"]) post_node
  let expando := findDesc2 (selTagClasses "div" ["expando"])
    (selTagClasses "div" ["usertext-body"]) (selTagClasses "div" ["md"]) false false post_node
  ⟨extract_fullname_id (attrGet post_node "data-fullname"),
   normalize_text (title_elem.map (textContent true)),
   extract_post_author post_node,
   attrGet post_node "data-subreddit",
   parse_score (findFirst (selTagClasses "div" ["score", "unvoted"]) post_node),
   attrGet post_node "data-url",
   attrGet post_node "data-permalink",
   expando.map nodeHtml,
   parse_timestamp (findFirst (selTagClasses "time" ["live-timestamp"]) post_node),
   extract_post_num_comments post_node,
   decide (attrGet post_node "data-nsfw" = some "true"),
   decide (attrGet post_node "data-spoiler" = some "true"),
   attrGet post_node "data-domain",
   flair_elem.map (textContent true)⟩

/-- The parsed post record. -/
structure RedditPostData where
  post_id : Option String
  title : Option String
  author : Option String
  subreddit : Option String
  score : Option Int
  url : Option String
  permalink : Option String
  content_html : Option String
  date_posted : Option String
  num_comments : Option Int
  is_nsfw : Bool
  is_spoiler : Bool
  domain : Option String
  flair : Option String
  comments : List RedditCommentData
deriving Repr

instance : Inhabited RedditPostData :=
  ⟨⟨none, none, none, none, none, none, none, none, none, none,
    false, false, none, none, []⟩⟩

/-- The primary post selector div.thing.link (CSS token matching). -/
def selPostPrimary (n : HNode) : Bool :=
  selTagClasses "div" ["thing", "link"] n

/-- The fallback post scan: the loop over the div.thing selection keeping the
first node whose class attribute contains the link substring is the first
node, in document order, satisfying the combined predicate. -/
def selPostFallback (n : HNode) : Bool :=
  selTagClasses "div" ["thing"] n && strContains (classAttr n) "link"

/-- The comment-area root selector div.commentarea div.sitetable.nestedlisting. -/
def findCommentArea (doc : HNode) : Option HNode :=
  findDesc1 (selTagClasses "div" ["commentarea"])
    (selTagClasses "div" ["sitetable", "nestedlisting"]) false doc

/-- Parse a post page: locate the post node by the primary selector then the
fallback scan (error when both fail), build the post context, and build each
top-level comment of the comment area at depth zero (an absent comment area
yields an empty comment sequence). -/
def parse_reddit_post_html (doc : HNode) : Except String RedditPostData :=
  let post_node : Option HNode :=
    match findFirst selPostPrimary doc with
    | some n => some n
    | none => findFirst selPostFallback doc
  match post_node with
  | none => .error "Could not find post element in HTML"
  | some pn =>
      let ctx := build_post_context pn
      let comments : List RedditCommentData :=
        match findCommentArea doc with
        | none => []
        | some area =>
            (get_direct_comment_children area).filterMap
              (fun n => parse_comment_node n ctx.post_id 0)
      .ok ⟨ctx.post_id, ctx.title, ctx.author, ctx.subreddit, ctx.score, ctx.url,
        ctx.permalink, ctx.content_html, ctx.date_posted, ctx.num_comments,
        ctx.is_nsfw, ctx.is_spoiler, ctx.domain, ctx.flair, comments⟩

/-! ## Checkers and conditions used by the claim statements -/

/-- Grouping of a comment list by one parent key: the subsequence with that
parent id, or none when it is empty (the expected value of a lookup in the
mapping built by build_comment_tree). -/
def optFilter (comments : List RedditCommentData) (k : Option String) :
    Option (List RedditCommentData) :=
  let g := comments.filter (fun c => decide (c.parent_id = k))
  if g.isEmpty then none else some g

mutual
/-- Depth and post-id invariant of a comment tree: the comment carries the
given depth and post id, and every child the successor depth with the same
post id. -/
def depthPostOk (d : Nat) (pid : Option String) : RedditCommentData → Bool
  | .mk f cs =>
      decide (f.depth = some d) && decide (f.post_id = pid) && depthPostOkL (d + 1) pid cs

def depthPostOkL (d : Nat) (pid : Option String) : List RedditCommentData → Bool
  | [] => true
  | c :: cs => depthPostOk d pid c && depthPostOkL d pid cs
end

mutual
/-- The distinguished field of every comment of a tree is absent, moderator
or admin. -/
def distOk : RedditCommentData → Bool
  | .mk f cs =>
      (decide (f.distinguished = none) || decide (f.distinguished = some "moderator") ||
        decide (f.distinguished = some "admin")) && distOkL cs

def distOkL : List RedditCommentData → Bool
  | [] => true
  | c :: cs => distOk c && distOkL cs
end

mutual
/-- The ancestor-resolution property claimed of parent ids: every present
parent_id occurs among the comment ids of the ancestors inside the tree. -/
def ancRes (ancs : List String) : RedditCommentData → Bool
  | .mk f cs =>
      (match f.parent_id with
       | none => true
       | some p => ancs.contains p) &&
      ancResL (match f.comment_id with | some i => i :: ancs | none => ancs) cs

def ancResL (ancs : List String) : List RedditCommentData → Bool
  | [] => true
  | c :: cs => ancRes ancs c && ancResL ancs cs
end

/-- A parent anchor carrying the fragment p: an anchor element with the
parent event action whose href is the hash followed by p. -/
def isParentAnchor (m : HNode) (p : String) : Prop :=
  tagIs m "a" = true ∧ attrGet m "data-event-action" = some "parent" ∧
  ∃ href, attrGet m "href" = some href ∧ href.data = '#' :: p.data

mutual
/-- Every present parent_id of the tree is the fragment of some parent
anchor occurring in the subtree of root. -/
def anchorsOk (root : HNode) : RedditCommentData → Prop
  | .mk f cs =>
      (∀ p, f.parent_id = some p → ∃ m, m ∈ subnodes root ∧ isParentAnchor m p) ∧
      anchorsOkL root cs

def anchorsOkL (root : HNode) : List RedditCommentData → Prop
  | [] => True
  | c :: cs => anchorsOk root c ∧ anchorsOkL root cs
end

/-- The subreddit matcher reaches a post-id check and that check fails:
segments r, s1, comments, s3 with s1 not the popular or all keyword and s3
not post-id shaped. -/
def subIdCheckFail (segs : List String) : Bool :=
  match segs with
  | s0 :: s1 :: rest =>
      decide (s0 = "r") && !decide (toLowerStr s1 = "popular") &&
      !decide (toLowerStr s1 = "all") &&
      (match rest with
       | s2 :: s3 :: _ => decide (s2 = "comments") && !postIdShape s3
       | _ => false)
  | _ => false

/-- The subreddit-path matcher accepts (returns a locator rather than
skipping or failing). -/
def subredditAccepts (segs : List String) : Bool :=
  match segs with
  | s0 :: s1 :: rest =>
      decide (s0 = "r") &&
      (decide (toLowerStr s1 = "popular") || decide (toLowerStr s1 = "all") ||
        (match rest with
         | s2 :: s3 :: _ => !decide (s2 = "comments") || postIdShape s3
         | _ => true))
  | _ => false

/-- The user-path matcher accepts. -/
def userAccepts (segs : List String) : Bool :=
  match segs with
  | s0 :: _ :: _ => decide (s0 = "user") || decide (s0 = "u")
  | _ => false

/-- Failure of the matcher loop on a valid-domain URL: an invalid shortlink
slug, an invalid permalink post id, or no matcher accepting the segments. -/
def matchersFail (n : String) (segs : List String) : Bool :=
  (SHORTLINK_HOSTS.contains n && !postIdShape (segs.headD "")) ||
  (!SHORTLINK_HOSTS.contains n && subIdCheckFail segs) ||
  (!SHORTLINK_HOSTS.contains n && !segs.isEmpty && !subredditAccepts segs && !userAccepts segs)

/-- The classification-failure condition of the claim, phrased over the
stripped input and the parsed netloc and path: empty input, a non-reddit
host, an invalid required id segment (shortlink slug or permalink post id),
or no matcher accepting the segments. -/
def classifyFailCond (stripped netloc path : String) : Bool :=
  decide (stripped = "") || !parse_reddit_domain netloc ||
  matchersFail (normalize_netloc netloc) (split_path path)

/-- The scraper-error observer (the RedditScraperError of the source, as
opposed to a propagated ValueError). -/
def isScraperErr : Except ScrapeErr RedditUrlInfo → Bool
  | .error (.scraper _) => true
  | _ => false

/-- The success observer of a classification result. -/
def isOkE : Except ScrapeErr RedditUrlInfo → Bool
  | .ok _ => true
  | _ => false

/-! ## Concrete inputs used by witnesses and counterexamples -/

/-- Base comment fields used to build concrete comments. -/
def baseCF : RedditCommentFields :=
  ⟨none, none, none, none, none, none, none, none, none, none,
   false, false, false, none, false, none, none⟩

def c9a : RedditCommentData :=
  .mk ⟨some "aaa111", none, none, none, none, none, none, none, none, none,
       false, false, false, none, false, none, none⟩ []

def c9b : RedditCommentData :=
  .mk ⟨some "bbb222", none, some "aaa111", none, none, none, none, none, none, none,
       false, false, false, none, false, none, none⟩ []

def c9c : RedditCommentData :=
  .mk ⟨some "ccc333", none, none, none, none, none, none, none, none, none,
       false, false, false, none, false, none, none⟩ []

def c9list : List RedditCommentData := [c9a, c9b, c9c]

/-- A comment node with a valid fullname and entry, ordinary body text, no
author anchor, no tagline and no structural deleted marker. -/
def c2Node : HNode :=
  .elem "div" [("class", "thing comment"), ("data-fullname", "t1_abc1234")]
    [.elem "div" [("class", "entry")]
      [.elem "div" [("class", "usertext-body")]
        [.elem "div" [("class", "md")] [.text "hello"]]]]

/-- A comment node whose body text is exactly the removed sentinel. -/
def c6Node : HNode :=
  .elem "div" [("class", "thing comment"), ("data-fullname", "t1_def5678")]
    [.elem "div" [("class", "entry")]
      [.elem "div" [("class", "usertext-body")]
        [.elem "div" [("class", "md")] [.text "[removed]"]]]]

/-- The context of c6Node, computed by the builder. -/
def c6Ctx : CommentParseContext :=
  ((build_comment_context c6Node).getD
    ⟨none, none, none, none, none, none, none, none, false, false, false, none, false⟩)

/-- A nested child comment used by the concrete parse documents. -/
def c5Child : HNode :=
  .elem "div" [("class", "thing comment"), ("data-fullname", "t1_ccc222")]
    [.elem "div" [("class", "entry")]
      [.elem "p" [("class", "tagline")]
        [.elem "a" [("class", "author")] [.text "bob"]],
       .elem "a" [("data-event-action", "parent"), ("href", "#ccc111")] [.text "parent"],
       .elem "div" [("class", "usertext-body")]
        [.elem "div" [("class", "md")] [.text "reply text"]]]]

/-- A top-level comment with one nested child. -/
def c5Top : HNode :=
  .elem "div" [("class", "thing comment"), ("data-fullname", "t1_ccc111")]
    [.elem "div" [("class", "entry")]
      [.elem "p" [("class", "tagline")]
        [.elem "a" [("class", "author")] [.text "alice"]],
       .elem "div" [("class", "usertext-body")]
        [.elem "div" [("class", "md")] [.text "hello world"]]],
     .elem "div" [("class", "child")]
      [.elem "div" [("class", "sitetable listing")] [c5Child]]]

/-- A full post document: post node plus a comment area with one thread. -/
def c5Doc : HNode :=
  .elem "html" [] [
    .elem "body" [] [
      .elem "div" [("class", "thing link"), ("data-fullname", "t3_abc12"),
        ("data-subreddit", "nvidia")] [
        .elem "a" [("class", "title")] [.text "A   post  title"]],
      .elem "div" [("class", "commentarea")] [
        .elem "div" [("class", "sitetable nestedlisting")] [c5Top]]]]

def c5Post : RedditPostData := (parse_reddit_post_html c5Doc).toOption.getD default

/-- A document with no post node at all. -/
def c4NoPostDoc : HNode :=
  .elem "html" [] [.elem "body" [] [.elem "div" [("class", "content")] [.text "nothing"]]]

/-- A document with a post node but no comment area. -/
def c4PostOnlyDoc : HNode :=
  .elem "html" [] [
    .elem "body" [] [
      .elem "div" [("class", "thing link"), ("data-fullname", "t3_xyz99")]
        [.elem "a" [("class", "title")] [.text "lonely post"]]]]

def c4Post : RedditPostData := (parse_reddit_post_html c4PostOnlyDoc).toOption.getD default

/-- A comment node carrying both the moderator and admin class tokens. -/
def c10Node : HNode :=
  .elem "div" [("class", "thing comment moderator admin"), ("data-fullname", "t1_mmm111")]
    [.elem "div" [("class", "entry")] []]

/-- The entry div of c10Node. -/
def c10Entry : HNode := .elem "div" [("class", "entry")] []

/-- A post document whose single top-level comment carries a parent anchor
pointing at an id that belongs to no ancestor. -/
def c7Top : HNode :=
  .elem "div" [("class", "thing comment"), ("data-fullname", "t1_kkk111")]
    [.elem "div" [("class", "entry")]
      [.elem "a" [("data-event-action", "parent"), ("href", "#zzzzzz")] [.text "parent"],
       .elem "div" [("class", "usertext-body")]
        [.elem "div" [("class", "md")] [.text "dangling parent"]]]]

def c7Doc : HNode :=
  .elem "html" [] [
    .elem "body" [] [
      .elem "div" [("class", "thing link"), ("data-fullname", "t3_ppp11")] [],
      .elem "div" [("class", "commentarea")] [
        .elem "div" [("class", "sitetable nestedlisting")] [c7Top]]]]

def c7Post : RedditPostData := (parse_reddit_post_html c7Doc).toOption.getD default

/-- A permalink-shaped URL whose subreddit segment is the popular keyword. -/
def c1BadUrl : String := "https://www.reddit.com/r/popular/comments/abc12/slug/abcdef1"

/-- An ordinary comment permalink. -/
def c1GoodUrl : String := "https://old.reddit.com/r/nvidia/comments/abc12/slug/abcdef1"

/-- A permalink whose sixth segment fails the comment-id shape (too short). -/
def c1PostUrl : String := "https://old.reddit.com/r/nvidia/comments/abc12/slug/ab"

/-- The fallback post scan as the claim words it: candidate thing nodes
carrying a link class TOKEN (the code instead tests for the link substring,
see selPostFallback). -/
def selPostFallbackToken (n : HNode) : Bool :=
  selTagClasses "div" ["thing"] n && hasClassToken (classAttr n) "link"

/-- The post node of the C4 counterexample document: its class attribute
contains link only as a substring of the slink token, never as a token. -/
def c4SlinkNode : HNode :=
  .elem "div" [("class", "thing slink"), ("data-fullname", "t3_sl123")]
    [.elem "a" [("class", "title")] [.text "substring post"]]

/-- A document whose only candidate post node is c4SlinkNode. -/
def c4SlinkDoc : HNode :=
  .elem "html" [] [.elem "body" [] [c4SlinkNode]]

def c4SlinkPost : RedditPostData := (parse_reddit_post_html c4SlinkDoc).toOption.getD default

/-! ## Lemmas: the flat tree indexer -/

theorem assocLookup_dictAppend_same (t : List (Option String × List RedditCommentData))
    (k : Option String) (c : RedditCommentData) :
    assocLookup (dictAppend t k c) k = some ((assocLookup t k).getD [] ++ [c]) := by
  induction t with
  | nil => simp [dictAppend, assocLookup]
  | cons hd tl ih =>
      obtain ⟨k0, l0⟩ := hd
      by_cases h0 : k0 = k
      · subst h0; simp [dictAppend, assocLookup]
      · simp [dictAppend, assocLookup, h0, ih]

theorem assocLookup_dictAppend_other (t : List (Option String × List RedditCommentData))
    (k k' : Option String) (c : RedditCommentData) (h : k' ≠ k) :
    assocLookup (dictAppend t k c) k' = assocLookup t k' := by
  have h' : ¬ k = k' := fun hh => h hh.symm
  induction t with
  | nil => simp [dictAppend, assocLookup, h']
  | cons hd tl ih =>
      obtain ⟨k0, l0⟩ := hd
      by_cases h0 : k0 = k
      · subst h0; simp [dictAppend, assocLookup, h']
      · by_cases h1 : k0 = k'
        · subst h1; simp [dictAppend, assocLookup, h0]
        · simp [dictAppend, assocLookup, h0, h1, ih]

theorem assocLookup_eq_none_iff (t : List (Option String × List RedditCommentData))
    (k : Option String) :
    assocLookup t k = none ↔ k ∉ t.map Prod.fst := by
  induction t with
  | nil => simp [assocLookup]
  | cons hd tl ih =>
      obtain ⟨k0, l0⟩ := hd
      by_cases h : k0 = k
      · subst h; simp [assocLookup]
      · have h' : ¬ k = k0 := fun hh => h hh.symm
        simp [assocLookup, h, h', ih]

theorem keys_dictAppend_mem (t : List (Option String × List RedditCommentData))
    (k : Option String) (c : RedditCommentData) (h : k ∈ t.map Prod.fst) :
    (dictAppend t k c).map Prod.fst = t.map Prod.fst := by
  induction t with
  | nil => simp at h
  | cons hd tl ih =>
      obtain ⟨k0, l0⟩ := hd
      by_cases h0 : k0 = k
      · subst h0; simp [dictAppend]
      · simp only [List.map_cons, List.mem_cons] at h
        rcases h with h | h
        · exact absurd h.symm h0
        · simp [dictAppend, h0, ih h]

theorem keys_dictAppend_not_mem (t : List (Option String × List RedditCommentData))
    (k : Option String) (c : RedditCommentData) (h : k ∉ t.map Prod.fst) :
    (dictAppend t k c).map Prod.fst = t.map Prod.fst ++ [k] := by
  induction t with
  | nil => simp [dictAppend]
  | cons hd tl ih =>
      obtain ⟨k0, l0⟩ := hd
      simp only [List.map_cons, List.mem_cons] at h
      push_neg at h
      have h0 : ¬ k0 = k := fun hh => h.1 hh.symm
      simp [dictAppend, h0, ih h.2]

theorem nodup_keys_dictAppend (t : List (Option String × List RedditCommentData))
    (k : Option String) (c : RedditCommentData)
    (h : (t.map Prod.fst).Nodup) : ((dictAppend t k c).map Prod.fst).Nodup := by
  by_cases hm : k ∈ t.map Prod.fst
  · rw [keys_dictAppend_mem t k c hm]; exact h
  · rw [keys_dictAppend_not_mem t k c hm]
    simp [List.nodup_append, h, hm]

theorem optFilter_getD (comments : List RedditCommentData) (k : Option String) :
    (optFilter comments k).getD [] = comments.filter (fun c => decide (c.parent_id = k)) := by
  simp only [optFilter]
  by_cases h : (comments.filter (fun c => decide (c.parent_id = k))).isEmpty
  · simp only [if_pos h]
    rw [List.isEmpty_iff] at h
    simp [h]
  · simp only [if_neg h, Option.getD_some]

theorem build_comment_tree_lookup (comments : List RedditCommentData)
    (k : Option String) :
    assocLookup (build_comment_tree comments) k = optFilter comments k := by
  induction comments using List.reverseRecOn generalizing k with
  | nil => simp [build_comment_tree, assocLookup, optFilter]
  | append_singleton l c ih =>
      have hb : build_comment_tree (l ++ [c]) =
          dictAppend (build_comment_tree l) c.parent_id c := by
        simp [build_comment_tree, List.foldl_append]
      rw [hb]
      by_cases h : k = c.parent_id
      · subst h
        rw [assocLookup_dictAppend_same, ih, optFilter_getD]
        have hc : List.filter (fun x => decide (x.parent_id = c.parent_id)) [c] = [c] := by
          simp
        simp only [optFilter, List.filter_append, hc]
        have hne : ((l.filter (fun x => decide (x.parent_id = c.parent_id))) ++ [c]).isEmpty =
            false := by
          simp
        simp [hne]
      · rw [assocLookup_dictAppend_other _ _ _ _ h, ih]
        have hd : decide (c.parent_id = k) = false :=
          decide_eq_false (fun hh => h hh.symm)
        have hc : List.filter (fun x => decide (x.parent_id = k)) [c] = [] := by
          simp [List.filter_cons, hd]
        simp only [optFilter, List.filter_append, hc, List.append_nil]

theorem build_comment_tree_keys_nodup (comments : List RedditCommentData) :
    ((build_comment_tree comments).map Prod.fst).Nodup := by
  induction comments using List.reverseRecOn with
  | nil => simp [build_comment_tree]
  | append_singleton l c ih =>
      have hb : build_comment_tree (l ++ [c]) =
          dictAppend (build_comment_tree l) c.parent_id c := by
        simp [build_comment_tree, List.foldl_append]
      rw [hb]
      exact nodup_keys_dictAppend _ _ _ ih

theorem mem_of_assocLookup (t : List (Option String × List RedditCommentData))
    (k : Option String) (g : List RedditCommentData)
    (h : assocLookup t k = some g) : (k, g) ∈ t := by
  induction t with
  | nil => simp [assocLookup] at h
  | cons hd tl ih =>
      obtain ⟨k0, l0⟩ := hd
      by_cases h0 : k0 = k
      · subst h0
        simp [assocLookup] at h
        subst h
        exact List.mem_cons_self _ _
      · simp only [assocLookup, if_neg h0] at h
        exact List.mem_cons_of_mem _ (ih h)

theorem assocLookup_of_mem_nodup (t : List (Option String × List RedditCommentData))
    (k : Option String) (g : List RedditCommentData)
    (hn : (t.map Prod.fst).Nodup) (h : (k, g) ∈ t) : assocLookup t k = some g := by
  induction t with
  | nil => simp at h
  | cons hd tl ih =>
      obtain ⟨k0, l0⟩ := hd
      simp only [List.map_cons, List.nodup_cons] at hn
      rcases List.mem_cons.1 h with h1 | h1
      · obtain ⟨h2, h3⟩ := Prod.ext_iff.1 h1
        simp only at h2 h3
        subst h2; subst h3
        simp [assocLookup]
      · have hk0 : ¬ k0 = k := by
          intro hh
          subst hh
          exact hn.1 (List.mem_map_of_mem Prod.fst h1)
        simp only [assocLookup, if_neg hk0]
        exact ih hn.2 h1

/-- C9: build_comment_tree is an order-preserving partition of its input by
parent_id: keys are unique, the group of every key is exactly the subsequence
of input comments with that parent_id in input order (none when there is no
such comment), every stored group is such a nonempty subsequence, and every
input comment lies in the group of its own parent_id. -/
theorem c9_build_comment_tree_partition (comments : List RedditCommentData) :
    ((build_comment_tree comments).map Prod.fst).Nodup
    ∧ (∀ k, assocLookup (build_comment_tree comments) k = optFilter comments k)
    ∧ (∀ k g, (k, g) ∈ build_comment_tree comments →
        g = comments.filter (fun c => decide (c.parent_id = k)) ∧ g ≠ [])
    ∧ (∀ c ∈ comments,
        assocLookup (build_comment_tree comments) c.parent_id =
          some (comments.filter (fun x => decide (x.parent_id = c.parent_id)))
        ∧ c ∈ comments.filter (fun x => decide (x.parent_id = c.parent_id))) := by
  refine ⟨build_comment_tree_keys_nodup comments,
    fun k => build_comment_tree_lookup comments k, ?_, ?_⟩
  · intro k g hm
    have hl := assocLookup_of_mem_nodup _ _ _ (build_comment_tree_keys_nodup comments) hm
    rw [build_comment_tree_lookup] at hl
    simp only [optFilter] at hl
    by_cases h : (comments.filter (fun c => decide (c.parent_id = k))).isEmpty
    · simp [h] at hl
    · simp only [if_neg h, Option.some.injEq] at hl
      refine ⟨hl.symm, ?_⟩
      intro hg
      rw [hg] at hl
      rw [hl] at h
      simp at h
  · intro c hc
    have hmemf : c ∈ comments.filter (fun x => decide (x.parent_id = c.parent_id)) :=
      List.mem_filter.2 ⟨hc, by simp⟩
    refine ⟨?_, hmemf⟩
    rw [build_comment_tree_lookup]
    simp only [optFilter]
    have hne : (comments.filter (fun x => decide (x.parent_id = c.parent_id))).isEmpty =
        false := by
      cases he : (comments.filter (fun x => decide (x.parent_id = c.parent_id))).isEmpty
      · rfl
      · rw [List.isEmpty_iff] at he
        rw [he] at hmemf
        simp at hmemf
    simp [hne]

/-! ## Lemmas: comment flag extraction -/

theorem context_flags_char (node : HNode) (ctx : CommentParseContext)
    (h : build_comment_context node = some ctx) :
    ctx.is_removed = decide (commentBodyText node = some "[removed]")
    ∧ ctx.is_deleted =
        (structuralDeletedMarker node || decide (commentBodyText node = some "[deleted]")) := by
  cases hf : extract_fullname_id (attrGet node "data-fullname") with
  | none => simp [build_comment_context, hf] at h
  | some cid =>
      by_cases hcid : cid = ""
      · simp [build_comment_context, hf, hcid] at h
      · cases he : commentEntry node with
        | none => simp [build_comment_context, hf, hcid, he] at h
        | some entry =>
            cases hb : commentBody entry with
            | none =>
                simp only [build_comment_context, hf, if_neg hcid, he,
                  extract_comment_content, hb, Option.some.injEq] at h
                subst h
                simp [commentBodyText, he, hb, structuralDeletedMarker]
            | some bodyel =>
                simp only [build_comment_context, hf, if_neg hcid, he,
                  extract_comment_content, hb, Option.some.injEq] at h
                subst h
                constructor
                · simp [commentBodyText, he, hb]
                · simp [commentBodyText, he, hb, structuralDeletedMarker]

/-- C2 (amended): the removed flag is set exactly by the removed body
sentinel, and the deleted flag exactly by the structural deleted class marker
or the deleted body sentinel, the marker being checked first; the absence of
an author element never sets deleted (it only makes the author fall back to
the deleted sentinel when deletion was already established). -/
theorem c2_deleted_removed_signals (node : HNode) (ctx : CommentParseContext)
    (h : build_comment_context node = some ctx) :
    ctx.is_removed = decide (commentBodyText node = some "[removed]")
    ∧ ctx.is_deleted =
        (structuralDeletedMarker node || decide (commentBodyText node = some "[deleted]")) :=
  context_flags_char node ctx h

/-- C2 counterexample: a comment node with no author element, no structural
deleted marker and ordinary body text is not marked deleted (the claimed
no-author fallback does not exist for the deleted flag; it only affects the
author field, which stays absent here as well). -/
theorem c2_counterexample :
    structuralDeletedMarker c2Node = false
    ∧ commentBodyText c2Node = some "hello"
    ∧ ((commentEntry c2Node).map
        (fun e => (findFirst (selTagClasses "a" ["author"]) e).isNone)) = some true
    ∧ (build_comment_context c2Node).map (fun ctx => ctx.is_deleted) = some false
    ∧ (build_comment_context c2Node).map (fun ctx => ctx.author) = some none := by
  exact ⟨rfl, rfl, rfl, rfl, rfl⟩

/-- C2 witness: the amended characterization applied to the concrete node
c6Node, whose body text is the removed sentinel. -/
theorem c2_witness :
    build_comment_context c6Node = some c6Ctx
    ∧ c6Ctx.is_removed = decide (commentBodyText c6Node = some "[removed]")
    ∧ c6Ctx.is_deleted =
        (structuralDeletedMarker c6Node || decide (commentBodyText c6Node = some "[deleted]")) := by
  refine ⟨rfl, ?_, ?_⟩
  · exact (c2_deleted_removed_signals c6Node c6Ctx rfl).1
  · exact (c2_deleted_removed_signals c6Node c6Ctx rfl).2

/-- C6: for a comment node without the structural deleted marker, body text
exactly the removed sentinel gives removed and not deleted; exactly the
deleted sentinel gives deleted and not removed; any other body text, or a
missing body element, gives neither flag. -/
theorem c6_sentinel_flags (node : HNode) (ctx : CommentParseContext)
    (h : build_comment_context node = some ctx)
    (hm : structuralDeletedMarker node = false) :
    (commentBodyText node = some "[removed]" → ctx.is_removed = true ∧ ctx.is_deleted = false)
    ∧ (commentBodyText node = some "[deleted]" → ctx.is_deleted = true ∧ ctx.is_removed = false)
    ∧ (∀ s, commentBodyText node = some s → s ≠ "[removed]" → s ≠ "[deleted]" →
        ctx.is_removed = false ∧ ctx.is_deleted = false)
    ∧ (commentBodyText node = none → ctx.is_removed = false ∧ ctx.is_deleted = false) := by
  obtain ⟨hr, hd⟩ := context_flags_char node ctx h
  rw [hm] at hd
  simp only [Bool.false_or] at hd
  refine ⟨?_, ?_, ?_, ?_⟩
  · intro hb
    rw [hb] at hr hd
    simp at hr hd
    exact ⟨hr, hd⟩
  · intro hb
    rw [hb] at hr hd
    simp at hr hd
    exact ⟨hd, hr⟩
  · intro s hb hs1 hs2
    rw [hb] at hr hd
    simp [hs1, hs2] at hr hd
    exact ⟨hr, hd⟩
  · intro hb
    rw [hb] at hr hd
    simp at hr hd
    exact ⟨hr, hd⟩

/-- C6 witness: the theorem applied to the concrete node c6Node with body
text the removed sentinel. -/
theorem c6_witness :
    build_comment_context c6Node = some c6Ctx
    ∧ structuralDeletedMarker c6Node = false
    ∧ commentBodyText c6Node = some "[removed]"
    ∧ c6Ctx.is_removed = true ∧ c6Ctx.is_deleted = false := by
  have h := (c6_sentinel_flags c6Node c6Ctx rfl rfl).1 rfl
  exact ⟨rfl, rfl, rfl, h.1, h.2⟩

/-! ## Lemmas: substring and class-token facts -/

theorem listIsPrefix_self_append (t r : List Char) : listIsPrefix t (t ++ r) = true := by
  induction t with
  | nil => rfl
  | cons a as ih => simp [listIsPrefix, ih]

theorem containsSub_of_prefix (hay t : List Char) (h : listIsPrefix t hay = true) :
    containsSub hay t = true := by
  cases hay with
  | nil => simp [containsSub, h]
  | cons c cs => simp [containsSub, h]

theorem containsSub_append_left (xs cs t : List Char) (h : containsSub cs t = true) :
    containsSub (xs ++ cs) t = true := by
  induction xs with
  | nil => simpa using h
  | cons x xs ih =>
      show containsSub (x :: (xs ++ cs)) t = true
      by_cases hp : listIsPrefix t (x :: (xs ++ cs)) = true
      · simp [containsSub, hp]
      · simp only [containsSub]
        rw [if_neg (by simp [hp])]
        exact ih

theorem mem_splitWsAux (cs : List Char) : ∀ (acc : List Char) (t : String),
    t ∈ splitWsAux cs acc → containsSub (acc.reverse ++ cs) t.data = true := by
  induction cs with
  | nil =>
      intro acc t h
      cases acc with
      | nil => simp [splitWsAux] at h
      | cons a as =>
          simp only [splitWsAux, List.isEmpty_cons, if_neg] at h
          simp only [Bool.false_eq_true, if_false, List.mem_singleton] at h
          subst h
          rw [List.append_nil]
          exact containsSub_of_prefix _ _ (by
            have := listIsPrefix_self_append (a :: as).reverse []
            simpa using this)
  | cons c cs ih =>
      intro acc t h
      by_cases hsp : pyIsSpace c = true
      · cases acc with
        | nil =>
            simp only [splitWsAux, hsp, if_pos, List.isEmpty_nil] at h
            have := ih [] t (by simpa using h)
            simp only [List.reverse_nil, List.nil_append] at this
            exact containsSub_append_left [c] cs t.data this
        | cons a as =>
            simp only [splitWsAux, hsp, if_pos, List.isEmpty_cons] at h
            simp only [Bool.false_eq_true, if_false, List.mem_cons] at h
            rcases h with h | h
            · subst h
              exact containsSub_of_prefix _ _ (listIsPrefix_self_append _ _)
            · have := ih [] t (by simpa using h)
              simp only [List.reverse_nil, List.nil_append] at this
              have h2 := containsSub_append_left ((a :: as).reverse ++ [c]) cs t.data this
              simpa using h2
      · simp only [splitWsAux, hsp] at h
        simp only [Bool.false_eq_true, if_false] at h
        have := ih (c :: acc) t h
        simpa using this
  
theorem hasClassToken_mem (cls tok : String) (h : hasClassToken cls tok = true) :
    tok ∈ splitWs cls :=
  List.mem_of_elem_eq_true h

theorem hasClassToken_strContains (cls tok : String) (h : hasClassToken cls tok = true) :
    strContains cls tok = true := by
  have hm : tok ∈ splitWs cls := hasClassToken_mem cls tok h
  have := mem_splitWsAux cls.data [] tok hm
  simpa [strContains] using this

/-! ## Lemmas: the recursive comment builder -/

theorem depthPostOkL_iff (d : Nat) (pid : Option String) (l : List RedditCommentData) :
    depthPostOkL d pid l = true ↔ ∀ c ∈ l, depthPostOk d pid c = true := by
  induction l with
  | nil => simp [depthPostOkL]
  | cons c cs ih => simp [depthPostOkL, ih]

theorem distOkL_iff (l : List RedditCommentData) :
    distOkL l = true ↔ ∀ c ∈ l, distOk c = true := by
  induction l with
  | nil => simp [distOkL]
  | cons c cs ih => simp [distOkL, ih]

/-- The distinguished value computed by the metadata extractor is always
absent, moderator or admin. -/
theorem context_distinguished (node : HNode) (ctx : CommentParseContext)
    (h : build_comment_context node = some ctx) :
    ctx.distinguished = none ∨ ctx.distinguished = some "moderator" ∨
      ctx.distinguished = some "admin" := by
  cases hf : extract_fullname_id (attrGet node "data-fullname") with
  | none => simp [build_comment_context, hf] at h
  | some cid =>
      by_cases hcid : cid = ""
      · simp [build_comment_context, hf, hcid] at h
      · cases he : commentEntry node with
        | none => simp [build_comment_context, hf, hcid, he] at h
        | some entry =>
            simp only [build_comment_context, hf, if_neg hcid, he, Option.some.injEq] at h
            subst h
            simp only [extract_comment_metadata]
            by_cases h1 : strContains (classAttr node) "moderator" = true
            · simp [h1]
            · by_cases h2 : strContains (classAttr node) "admin" = true
              · simp [h1, h2]
              · simp [h1, h2]

theorem parse_fuel_depth (fuel : Nat) :
    ∀ (node : HNode) (pid : Option String) (d : Nat) (c : RedditCommentData),
      parse_comment_node_fuel fuel node pid d = some c → depthPostOk d pid c = true := by
  induction fuel with
  | zero => intro node pid d c h; simp [parse_comment_node_fuel] at h
  | succ n ih =>
      intro node pid d c h
      simp only [parse_comment_node_fuel] at h
      by_cases hmc : attrGet node "data-type" = some "morechildren"
      · simp [hmc] at h
      · rw [if_neg hmc] at h
        cases hctx : build_comment_context node with
        | none => simp [hctx] at h
        | some ctx =>
            simp only [hctx, Option.some.injEq] at h
            subst h
            simp only [depthPostOk, Bool.and_eq_true, decide_eq_true_eq]
            refine ⟨by simp, ?_⟩
            cases hcont : findDesc1 (selTagClasses "div" ["child"])
                (selTagClasses "div" ["sitetable"]) false node with
            | none => simp [hcont, depthPostOkL]
            | some container =>
                simp only [hcont]
                rw [depthPostOkL_iff]
                intro c' hc'
                obtain ⟨ch, _, hfc⟩ := List.mem_filterMap.1 hc'
                exact ih ch pid (d + 1) c' hfc

theorem parse_fuel_dist (fuel : Nat) :
    ∀ (node : HNode) (pid : Option String) (d : Nat) (c : RedditCommentData),
      parse_comment_node_fuel fuel node pid d = some c → distOk c = true := by
  induction fuel with
  | zero => intro node pid d c h; simp [parse_comment_node_fuel] at h
  | succ n ih =>
      intro node pid d c h
      simp only [parse_comment_node_fuel] at h
      by_cases hmc : attrGet node "data-type" = some "morechildren"
      · simp [hmc] at h
      · rw [if_neg hmc] at h
        cases hctx : build_comment_context node with
        | none => simp [hctx] at h
        | some ctx =>
            simp only [hctx, Option.some.injEq] at h
            subst h
            simp only [distOk, Bool.and_eq_true, Bool.or_eq_true, decide_eq_true_eq]
            constructor
            · rcases context_distinguished node ctx hctx with hd | hd | hd
              · exact Or.inl (Or.inl hd)
              · exact Or.inl (Or.inr hd)
              · exact Or.inr hd
            · cases hcont : findDesc1 (selTagClasses "div" ["child"])
                  (selTagClasses "div" ["sitetable"]) false node with
              | none => simp [hcont, distOkL]
              | some container =>
                  simp only [hcont]
                  rw [distOkL_iff]
                  intro c' hc'
                  obtain ⟨ch, _, hfc⟩ := List.mem_filterMap.1 hc'
                  exact ih ch pid (d + 1) c' hfc

/-- Shape of a successful parse: some node was accepted as the post node,
the post id is its context id, and the comments are the filterMap of the
comment-area children. -/
theorem parse_post_ok_shape (doc : HNode) (post : RedditPostData)
    (h : parse_reddit_post_html doc = .ok post) :
    ∃ pn,
      post.post_id = (build_post_context pn).post_id
      ∧ post.comments = (match findCommentArea doc with
          | none => []
          | some area =>
              (get_direct_comment_children area).filterMap
                (fun n => parse_comment_node n (build_post_context pn).post_id 0)) := by
  cases hp : findFirst selPostPrimary doc with
  | some pn =>
      simp only [parse_reddit_post_html, hp, Except.ok.injEq] at h
      subst h
      exact ⟨pn, rfl, rfl⟩
  | none =>
      cases hf : findFirst selPostFallback doc with
      | some pn =>
          simp only [parse_reddit_post_html, hp, hf, Except.ok.injEq] at h
          subst h
          exact ⟨pn, rfl, rfl⟩
      | none => simp [parse_reddit_post_html, hp, hf] at h

/-- C5: in every tree returned by the post assembler, top-level comments have
depth zero, every child has its parent depth plus one, and every comment
carries the post id extracted from the post node. -/
theorem c5_depth_post_id_invariant (doc : HNode) (post : RedditPostData)
    (h : parse_reddit_post_html doc = .ok post) :
    depthPostOkL 0 post.post_id post.comments = true := by
  obtain ⟨pn, hpid, hcom⟩ := parse_post_ok_shape doc post h
  rw [hcom, hpid]
  cases harea : findCommentArea doc with
  | none => simp [depthPostOkL]
  | some area =>
      simp only [harea]
      rw [depthPostOkL_iff]
      intro c hc
      obtain ⟨n, _, hfc⟩ := List.mem_filterMap.1 hc
      exact parse_fuel_depth _ n _ 0 c hfc

/-- C5 witness: the invariant on a concrete two-level comment tree. -/
theorem c5_witness :
    parse_reddit_post_html c5Doc = .ok c5Post
    ∧ c5Post.comments.length = 1
    ∧ depthPostOkL 0 c5Post.post_id c5Post.comments = true :=
  ⟨rfl, rfl, c5_depth_post_id_invariant c5Doc c5Post rfl⟩

/-- C10: every comment produced by the post assembler has distinguished
absent, moderator or admin (the special value of the data model is never
produced), and on a node whose class attribute carries both the moderator
and admin tokens the metadata extractor yields moderator. -/
theorem c10_distinguished_values :
    (∀ (doc : HNode) (post : RedditPostData), parse_reddit_post_html doc = .ok post →
        distOkL post.comments = true)
    ∧ (∀ (node entry : HNode),
        hasClassToken (classAttr node) "moderator" = true →
        hasClassToken (classAttr node) "admin" = true →
        (extract_comment_metadata node entry).1 = some "moderator") := by
  constructor
  · intro doc post h
    obtain ⟨pn, _, hcom⟩ := parse_post_ok_shape doc post h
    rw [hcom]
    cases harea : findCommentArea doc with
    | none => simp [distOkL]
    | some area =>
        simp only [harea]
        rw [distOkL_iff]
        intro c hc
        obtain ⟨n, _, hfc⟩ := List.mem_filterMap.1 hc
        exact parse_fuel_dist _ n _ 0 c hfc
  · intro node entry hm _
    have hs := hasClassToken_strContains _ _ hm
    simp [extract_comment_metadata, hs]

/-- C10 witness: the tree part on a concrete document and the precedence part
on a node carrying both tokens. -/
theorem c10_witness :
    parse_reddit_post_html c5Doc = .ok c5Post
    ∧ distOkL c5Post.comments = true
    ∧ hasClassToken (classAttr c10Node) "moderator" = true
    ∧ hasClassToken (classAttr c10Node) "admin" = true
    ∧ (extract_comment_metadata c10Node c10Entry).1 = some "moderator" :=
  ⟨rfl, c10_distinguished_values.1 c5Doc c5Post rfl, rfl, rfl,
    c10_distinguished_values.2 c10Node c10Entry rfl rfl⟩

/-- C4 (amended): the post assembler fails exactly when neither the primary
selector div.thing.link nor the fallback scan finds a post node, where the
fallback accepts any div carrying the thing class token whose class
attribute contains link as a raw SUBSTRING (not necessarily as a token, see
c4_counterexample); and when a post node is found but the comment area is
absent, it returns a post with an empty comment list. -/
theorem c4_extraction_error_iff (doc : HNode) :
    ((∃ e, parse_reddit_post_html doc = .error e) ↔
      (findFirst selPostPrimary doc = none ∧ findFirst selPostFallback doc = none))
    ∧ (∀ post, parse_reddit_post_html doc = .ok post → findCommentArea doc = none →
        post.comments = []) := by
  constructor
  · constructor
    · rintro ⟨e, he⟩
      cases hp : findFirst selPostPrimary doc with
      | some pn => simp [parse_reddit_post_html, hp] at he
      | none =>
          cases hf : findFirst selPostFallback doc with
          | some pn => simp [parse_reddit_post_html, hp, hf] at he
          | none => exact ⟨rfl, rfl⟩
    · rintro ⟨hp, hf⟩
      exact ⟨"Could not find post element in HTML", by
        simp [parse_reddit_post_html, hp, hf]⟩
  · intro post h harea
    obtain ⟨pn, _, hcom⟩ := parse_post_ok_shape doc post h
    rw [hcom, harea]

/-- C4 witness: a document without a post node fails, and a document with a
post node but no comment area yields an empty comment list. -/
theorem c4_witness :
    parse_reddit_post_html c4NoPostDoc = .error "Could not find post element in HTML"
    ∧ parse_reddit_post_html c4PostOnlyDoc = .ok c4Post
    ∧ c4Post.comments = [] :=
  ⟨rfl, rfl, (c4_extraction_error_iff c4PostOnlyDoc).2 c4Post rfl rfl⟩

/-- C4 counterexample: a document whose only candidate node has class
thing slink.  No node matches the primary selector and no thing node
carries a link class token, so the claim as stated predicts the extraction
error; but the code tests for the link substring, which slink contains, and
returns a post. -/
theorem c4_counterexample :
    findFirst selPostPrimary c4SlinkDoc = none
    ∧ findFirst selPostFallbackToken c4SlinkDoc = none
    ∧ hasClassToken (classAttr c4SlinkNode) "link" = false
    ∧ strContains (classAttr c4SlinkNode) "link" = true
    ∧ parse_reddit_post_html c4SlinkDoc = .ok c4SlinkPost
    ∧ c4SlinkPost.post_id = some "sl123" :=
  ⟨rfl, rfl, rfl, rfl, rfl, rfl⟩

/-- C9 witness: the partition applied to a concrete three-comment list. -/
theorem c9_witness :
    c9a ∈ c9list
    ∧ assocLookup (build_comment_tree c9list) c9a.parent_id =
        some (c9list.filter (fun x => decide (x.parent_id = c9a.parent_id)))
    ∧ assocLookup (build_comment_tree c9list) none = some [c9a, c9c] := by
  have hm : c9a ∈ c9list := List.mem_cons_self _ _
  exact ⟨hm, ((c9_build_comment_tree_partition c9list).2.2.2 c9a hm).1, rfl⟩

/-! ## Lemmas: subtree membership -/

theorem mem_subnodes_self (n : HNode) : n ∈ subnodes n := by
  cases n with
  | text s => simp [subnodes]
  | elem t a cs => simp [subnodes]

mutual
theorem findFirst_subnodes (p : HNode → Bool) (n : HNode) (m : HNode)
    (h : findFirst p n = some m) : m ∈ subnodes n := by
  cases n with
  | text s =>
      simp only [findFirst] at h
      split at h
      · simp_all [subnodes]
      · simp_all
  | elem t a cs =>
      simp only [findFirst] at h
      split at h
      · simp_all [subnodes]
      · have := findFirstL_subnodes p cs m h
        simp [subnodes, this]

theorem findFirstL_subnodes (p : HNode → Bool) (l : List HNode) (m : HNode)
    (h : findFirstL p l = some m) : m ∈ subnodesL l := by
  cases l with
  | nil => simp [findFirstL] at h
  | cons c cs =>
      simp only [findFirstL] at h
      cases hc : findFirst p c with
      | some m' =>
          rw [hc] at h
          cases h
          have := findFirst_subnodes p c m hc
          simp [subnodesL, this]
      | none =>
          rw [hc] at h
          have := findFirstL_subnodes p cs m h
          simp [subnodesL, this]
end

mutual
theorem findFirst_sat (p : HNode → Bool) (n : HNode) (m : HNode)
    (h : findFirst p n = some m) : p m = true := by
  cases n with
  | text s =>
      simp only [findFirst] at h
      split at h
      · cases h; assumption
      · simp_all
  | elem t a cs =>
      simp only [findFirst] at h
      split at h
      · cases h; assumption
      · exact findFirstL_sat p cs m h

theorem findFirstL_sat (p : HNode → Bool) (l : List HNode) (m : HNode)
    (h : findFirstL p l = some m) : p m = true := by
  cases l with
  | nil => simp [findFirstL] at h
  | cons c cs =>
      simp only [findFirstL] at h
      cases hc : findFirst p c with
      | some m' =>
          rw [hc] at h
          cases h
          exact findFirst_sat p c m hc
      | none =>
          rw [hc] at h
          exact findFirstL_sat p cs m h
end

mutual
theorem findDesc1_subnodes (a p : HNode → Bool) (b : Bool) (n : HNode) (m : HNode)
    (h : findDesc1 a p b n = some m) : m ∈ subnodes n := by
  cases n with
  | text s =>
      simp only [findDesc1] at h
      split at h
      · simp_all [subnodes]
      · simp_all
  | elem t at_ cs =>
      simp only [findDesc1] at h
      split at h
      · simp_all [subnodes]
      · have := findDesc1L_subnodes a p _ cs m h
        simp [subnodes, this]

theorem findDesc1L_subnodes (a p : HNode → Bool) (b : Bool) (l : List HNode) (m : HNode)
    (h : findDesc1L a p b l = some m) : m ∈ subnodesL l := by
  cases l with
  | nil => simp [findDesc1L] at h
  | cons c cs =>
      simp only [findDesc1L] at h
      cases hc : findDesc1 a p b c with
      | some m' =>
          rw [hc] at h
          cases h
          have := findDesc1_subnodes a p b c m hc
          simp [subnodesL, this]
      | none =>
          rw [hc] at h
          have := findDesc1L_subnodes a p b cs m h
          simp [subnodesL, this]
end

mutual
theorem subnodes_trans (n : HNode) : ∀ k m : HNode,
    k ∈ subnodes n → m ∈ subnodes k → m ∈ subnodes n := by
  intro k m hk hm
  cases n with
  | text s =>
      simp only [subnodes, List.mem_singleton] at hk
      subst hk
      exact hm
  | elem t a cs =>
      simp only [subnodes, List.mem_cons] at hk
      rcases hk with hk | hk
      · subst hk; exact hm
      · have := subnodesL_trans cs k m hk hm
        simp [subnodes, this]

theorem subnodesL_trans (l : List HNode) : ∀ k m : HNode,
    k ∈ subnodesL l → m ∈ subnodes k → m ∈ subnodesL l := by
  intro k m hk hm
  cases l with
  | nil => simp [subnodesL] at hk
  | cons c cs =>
      simp only [subnodesL, List.mem_append] at hk
      rcases hk with hk | hk
      · have := subnodes_trans c k m hk hm
        simp [subnodesL, this]
      · have := subnodesL_trans cs k m hk hm
        simp [subnodesL, this]
end

theorem mem_subnodesL_of_mem (l : List HNode) (x : HNode) (h : x ∈ l) :
    x ∈ subnodesL l := by
  induction l with
  | nil => simp at h
  | cons c cs ih =>
      rcases List.mem_cons.1 h with h | h
      · subst h
        simp [subnodesL, mem_subnodes_self]
      · simp [subnodesL, ih h]

theorem childNodes_subnodes (n x : HNode) (h : x ∈ n.childNodes) : x ∈ subnodes n := by
  cases n with
  | text s => simp [HNode.childNodes] at h
  | elem t a cs =>
      simp only [HNode.childNodes] at h
      simp [subnodes, mem_subnodesL_of_mem cs x h]

/-! ## Lemmas: parent-anchor provenance -/

theorem anchorsOkL_iff (root : HNode) (l : List RedditCommentData) :
    anchorsOkL root l ↔ ∀ c ∈ l, anchorsOk root c := by
  induction l with
  | nil => simp [anchorsOkL]
  | cons c cs ih => simp [anchorsOkL, ih]

mutual
theorem anchorsOk_mono (c : RedditCommentData) : ∀ k n : HNode,
    k ∈ subnodes n → anchorsOk k c → anchorsOk n c := by
  intro k n hk h
  cases c with
  | mk f cs =>
      simp only [anchorsOk] at h ⊢
      refine ⟨?_, anchorsOkL_mono cs k n hk h.2⟩
      intro p hp
      obtain ⟨m, hm, ha⟩ := h.1 p hp
      exact ⟨m, subnodes_trans n k m hk hm, ha⟩

theorem anchorsOkL_mono (l : List RedditCommentData) : ∀ k n : HNode,
    k ∈ subnodes n → anchorsOkL k l → anchorsOkL n l := by
  intro k n hk h
  cases l with
  | nil => simp [anchorsOkL]
  | cons c cs =>
      simp only [anchorsOkL] at h ⊢
      exact ⟨anchorsOk_mono c k n hk h.1, anchorsOkL_mono cs k n hk h.2⟩
end

/-- A present parent id in a parse context is the fragment of a parent
anchor inside the subtree of the comment node. -/
theorem context_parent_anchor (node : HNode) (ctx : CommentParseContext)
    (h : build_comment_context node = some ctx) :
    ∀ p, ctx.parent_id = some p → ∃ m, m ∈ subnodes node ∧ isParentAnchor m p := by
  cases hf : extract_fullname_id (attrGet node "data-fullname") with
  | none => simp [build_comment_context, hf] at h
  | some cid =>
      by_cases hcid : cid = ""
      · simp [build_comment_context, hf, hcid] at h
      · cases he : commentEntry node with
        | none => simp [build_comment_context, hf, hcid, he] at h
        | some entry =>
            simp only [build_comment_context, hf, if_neg hcid, he, Option.some.injEq] at h
            subst h
            intro p hp
            simp only [extract_parent_id] at hp
            cases hl : findFirst (selAttrEq "a" "data-event-action" "parent") entry with
            | none => rw [hl] at hp; simp at hp
            | some link =>
                simp only [hl] at hp
                cases hh : attrGet link "href" with
                | none => rw [hh] at hp; simp at hp
                | some href =>
                    simp only [hh] at hp
                    by_cases hcond : (href ≠ "" && strStartsWith href "#") = true
                    · rw [if_pos hcond] at hp
                      have hpd : p = strDrop1 href := (Option.some.inj hp).symm
                      simp only [Bool.and_eq_true, decide_eq_true_eq] at hcond
                      have hsw : listIsPrefix ("#".data) href.data = true := hcond.2
                      have hmem : link ∈ subnodes node := by
                        have h1 : link ∈ subnodes entry := findFirst_subnodes _ _ _ hl
                        have h2 : entry ∈ subnodes node := findFirst_subnodes _ _ _ he
                        exact subnodes_trans node entry link h2 h1
                      have hsel := findFirst_sat _ _ _ hl
                      simp only [selAttrEq, Bool.and_eq_true, decide_eq_true_eq] at hsel
                      refine ⟨link, hmem, hsel.1, hsel.2, href, hh, ?_⟩
                      cases hdata : href.data with
                      | nil =>
                          rw [hdata] at hsw
                          simp [listIsPrefix] at hsw
                      | cons c0 tl =>
                          rw [hdata] at hsw
                          simp only [listIsPrefix, Bool.and_eq_true] at hsw
                          have hc0 : '#' = c0 := by
                            have := hsw.1
                            simpa using this
                          subst hpd
                          rw [← hc0]
                          simp [strDrop1, hdata]
                    · rw [if_neg hcond] at hp
                      simp at hp

theorem parse_fuel_anchors (fuel : Nat) :
    ∀ (node : HNode) (pid : Option String) (d : Nat) (c : RedditCommentData),
      parse_comment_node_fuel fuel node pid d = some c → anchorsOk node c := by
  induction fuel with
  | zero => intro node pid d c h; simp [parse_comment_node_fuel] at h
  | succ n ih =>
      intro node pid d c h
      simp only [parse_comment_node_fuel] at h
      by_cases hmc : attrGet node "data-type" = some "morechildren"
      · simp [hmc] at h
      · rw [if_neg hmc] at h
        cases hctx : build_comment_context node with
        | none => simp [hctx] at h
        | some ctx =>
            simp only [hctx, Option.some.injEq] at h
            subst h
            simp only [anchorsOk]
            constructor
            · intro p hp
              exact context_parent_anchor node ctx hctx p hp
            · cases hcont : findDesc1 (selTagClasses "div" ["child"])
                  (selTagClasses "div" ["sitetable"]) false node with
              | none => simp [hcont, anchorsOkL]
              | some container =>
                  simp only [hcont]
                  rw [anchorsOkL_iff]
                  intro c' hc'
                  obtain ⟨ch, hchmem, hfc⟩ := List.mem_filterMap.1 hc'
                  have h1 := ih ch pid (d + 1) c' hfc
                  have hch1 : ch ∈ container.childNodes := by
                    simp only [get_direct_comment_children] at hchmem
                    exact (List.mem_filter.1 hchmem).1
                  have hsub : ch ∈ subnodes node :=
                    subnodes_trans node container ch
                      (findDesc1_subnodes _ _ _ _ _ hcont)
                      (childNodes_subnodes container ch hch1)
                  exact anchorsOk_mono c' ch node hsub h1

/-- C7 (amended): in every tree returned by the post assembler, every
present parent_id is the fragment of a parent anchor occurring in the
document; the builder copies it from the markup and does not check it
against ancestor comment ids. -/
theorem c7_parent_from_markup (doc : HNode) (post : RedditPostData)
    (h : parse_reddit_post_html doc = .ok post) :
    anchorsOkL doc post.comments := by
  obtain ⟨pn, _, hcom⟩ := parse_post_ok_shape doc post h
  rw [hcom]
  cases harea : findCommentArea doc with
  | none => simp [anchorsOkL]
  | some area =>
      simp only [harea]
      rw [anchorsOkL_iff]
      intro c hc
      obtain ⟨n, hn, hfc⟩ := List.mem_filterMap.1 hc
      have h1 := parse_fuel_anchors _ n _ 0 c hfc
      have hn1 : n ∈ area.childNodes := by
        simp only [get_direct_comment_children] at hn
        exact (List.mem_filter.1 hn).1
      have hsub : n ∈ subnodes doc :=
        subnodes_trans doc area n
          (findDesc1_subnodes _ _ _ _ _ harea)
          (childNodes_subnodes area n hn1)
      exact anchorsOk_mono c n doc hsub h1

/-- C7 counterexample: a document whose only, top-level comment carries a
parent anchor with a fragment that matches no ancestor id; the claimed
ancestor-resolution invariant fails on the returned tree. -/
theorem c7_counterexample :
    parse_reddit_post_html c7Doc = .ok c7Post
    ∧ c7Post.comments.length = 1
    ∧ (c7Post.comments.headD (.mk baseCF [])).parent_id = some "zzzzzz"
    ∧ ancResL [] c7Post.comments = false :=
  ⟨rfl, rfl, rfl, rfl⟩

/-- C7 witness: the amended provenance property on a concrete document with
a nested reply whose parent anchor is present. -/
theorem c7_witness :
    parse_reddit_post_html c5Doc = .ok c5Post
    ∧ ((c5Post.comments.headD (.mk baseCF [])).children.headD (.mk baseCF [])).parent_id =
        some "ccc111"
    ∧ anchorsOkL c5Doc c5Post.comments :=
  ⟨rfl, rfl, c7_parent_from_markup c5Doc c5Post rfl⟩

/-! ## Lemmas: the URL classifier -/

theorem pyUrlparse_empty : pyUrlparse "" = .ok ⟨"", ""⟩ := rfl

theorem not_shortlink_of_family (n : String)
    (hd : n = "reddit.com" ∨ strEndsWith n ".reddit.com" = true) :
    SHORTLINK_HOSTS.contains n = false := by
  cases hc : SHORTLINK_HOSTS.contains n
  · rfl
  · exfalso
    have hmem : n ∈ SHORTLINK_HOSTS := List.mem_of_elem_eq_true hc
    simp only [SHORTLINK_HOSTS, List.mem_cons, List.mem_singleton, List.not_mem_nil,
      or_false] at hmem
    rcases hmem with rfl | rfl
    · rcases hd with hd | hd
      · exact absurd hd (by decide)
      · exact absurd hd (by decide)
    · rcases hd with hd | hd
      · exact absurd hd (by decide)
      · exact absurd hd (by decide)

theorem domain_of_family (netloc : String)
    (hd : normalize_netloc netloc = "reddit.com" ∨
          strEndsWith (normalize_netloc netloc) ".reddit.com" = true) :
    parse_reddit_domain netloc = true := by
  rcases hd with hd | hd
  · simp [parse_reddit_domain, hd]
  · simp [parse_reddit_domain, hd]

theorem get_reddit_reduce (url netloc path : String)
    (hp : pyUrlparse (pyStrip url) = .ok ⟨netloc, path⟩) (hne : pyStrip url ≠ "") :
    get_reddit_id_from_url url =
      if !parse_reddit_domain netloc then .error (.scraper "URL does not belong to reddit")
      else run_reddit_matchers (normalize_netloc netloc) (split_path path) url := by
  simp only [get_reddit_id_from_url, if_neg hne, hp]

theorem contains_false_not_mem {n : String} (h : SHORTLINK_HOSTS.contains n = false) :
    n ∉ SHORTLINK_HOSTS := by
  intro hm
  have h2 : SHORTLINK_HOSTS.contains n = true := List.elem_eq_true_of_mem hm
  rw [h2] at h
  cases h

/-- Value of the matcher loop on a shortlink host. -/
theorem run_matchers_short (n : String) (segments : List String) (url : String)
    (hs : SHORTLINK_HOSTS.contains n = true) :
    run_reddit_matchers n segments url =
      (if !postIdShape (segments.headD "") then
        .error (.scraper "Shortlink missing a valid post ID")
       else .ok ⟨.post, url, none, none, some (toLowerStr (segments.headD "")), none⟩) := by
  have hm : n ∈ SHORTLINK_HOSTS := List.mem_of_elem_eq_true hs
  cases segments with
  | nil =>
      have hf : postIdShape "" = false := rfl
      simp [run_reddit_matchers, parse_shortlink, hm, hf]
  | cons s rest =>
      by_cases hps : postIdShape s = true
      · simp [run_reddit_matchers, parse_shortlink, hm, hps]
      · simp only [Bool.not_eq_true] at hps
        simp [run_reddit_matchers, parse_shortlink, hm, hps]

/-- C8: on a shortlink host the classifier returns a post locator with the
lowercased first segment when it is post-id shaped, and fails when the
segment has the wrong shape or there is no segment at all; subreddit stays
absent. -/
theorem c8_shortlink_spec (url netloc path : String)
    (hp : pyUrlparse (pyStrip url) = .ok ⟨netloc, path⟩)
    (hshort : SHORTLINK_HOSTS.contains (normalize_netloc netloc) = true) :
    (split_path path = [] →
      get_reddit_id_from_url url = .error (.scraper "Shortlink missing a valid post ID"))
    ∧ (∀ s rest, split_path path = s :: rest →
        (postIdShape s = true →
          get_reddit_id_from_url url =
            .ok ⟨.post, url, none, none, some (toLowerStr s), none⟩)
        ∧ (postIdShape s = false →
          get_reddit_id_from_url url = .error (.scraper "Shortlink missing a valid post ID"))) := by
  have hne : pyStrip url ≠ "" := by
    intro h
    rw [h, pyUrlparse_empty] at hp
    simp only [Except.ok.injEq, UrlParts.mk.injEq] at hp
    rw [← hp.1] at hshort
    exact absurd hshort (by decide)
  have hdom : parse_reddit_domain netloc = true := by
    have hm : normalize_netloc netloc ∈ SHORTLINK_HOSTS := List.mem_of_elem_eq_true hshort
    simp [parse_reddit_domain, hm]
  rw [get_reddit_reduce url netloc path hp hne, hdom]
  rw [run_matchers_short _ _ _ hshort]
  simp only [Bool.not_true, Bool.false_eq_true, if_false]
  constructor
  · intro hsegs
    rw [hsegs]
    rfl
  · intro s rest hsegs
    rw [hsegs]
    constructor
    · intro hps
      simp [hps]
    · intro hps
      simp [hps]

/-- C8 witness: the spec example shortlink. -/
theorem c8_witness :
    pyUrlparse (pyStrip "https://redd.it/npm69h") = .ok ⟨"redd.it", "/npm69h"⟩
    ∧ get_reddit_id_from_url "https://redd.it/npm69h" =
        .ok ⟨.post, "https://redd.it/npm69h", none, none, some "npm69h", none⟩ := by
  refine ⟨rfl, ?_⟩
  exact ((c8_shortlink_spec "https://redd.it/npm69h" "redd.it" "/npm69h" rfl rfl).2
    "npm69h" [] rfl).1 rfl

/-- C1 counterexample: a URL on a reddit host whose path segments have the
claimed six-segment permalink shape with valid post and comment ids, yet the
classifier returns kind popular, not a comment locator, because the
popular/all keyword check precedes the comments branch. -/
theorem c1_counterexample :
    (pyUrlparse (pyStrip c1BadUrl)).toOption.map (fun parts => split_path parts.path) =
      some ["r", "popular", "comments", "abc12", "slug", "abcdef1"]
    ∧ (pyUrlparse (pyStrip c1BadUrl)).toOption.map
        (fun parts => strEndsWith (normalize_netloc parts.netloc) ".reddit.com") = some true
    ∧ postIdShape "abc12" = true
    ∧ commentIdShape "abcdef1" = true
    ∧ get_reddit_id_from_url c1BadUrl = .ok ⟨.popular, c1BadUrl, none, none, none, none⟩
    ∧ RedditKind.popular ≠ RedditKind.comment :=
  ⟨rfl, rfl, rfl, rfl, rfl, by decide⟩

/-- C1 (amended): on a reddit.com-family host, for a six-segment permalink
path with a valid post id, provided the subreddit segment is not the popular
or all keyword (those are matched first and win): when the sixth segment
matches the comment-id shape the classifier returns a comment locator with
lowercased ids and the verbatim subreddit, and when it does not the
classifier returns kind post with comment_id absent. -/
theorem c1_comment_permalink (url netloc path sub post slug comm : String)
    (hp : pyUrlparse (pyStrip url) = .ok ⟨netloc, path⟩)
    (hd : normalize_netloc netloc = "reddit.com" ∨
          strEndsWith (normalize_netloc netloc) ".reddit.com" = true)
    (hseg : split_path path = ["r", sub, "comments", post, slug, comm])
    (hsub1 : toLowerStr sub ≠ "popular") (hsub2 : toLowerStr sub ≠ "all")
    (hpost : postIdShape post = true) :
    (commentIdShape comm = true →
      get_reddit_id_from_url url =
        .ok ⟨.comment, url, some sub, none, some (toLowerStr post), some (toLowerStr comm)⟩)
    ∧ (commentIdShape comm = false →
      get_reddit_id_from_url url =
        .ok ⟨.post, url, some sub, none, some (toLowerStr post), none⟩) := by
  have hne : pyStrip url ≠ "" := by
    intro h
    rw [h, pyUrlparse_empty] at hp
    simp only [Except.ok.injEq, UrlParts.mk.injEq] at hp
    rw [← hp.1] at hd
    rcases hd with hd | hd
    · exact absurd hd (by decide)
    · exact absurd hd (by decide)
  have hdom := domain_of_family netloc hd
  have hns := not_shortlink_of_family _ hd
  constructor
  · intro hcomm
    rw [get_reddit_reduce url netloc path hp hne, hdom]
    simp only [Bool.not_true, Bool.false_eq_true, if_false]
    rw [hseg]
    simp [run_reddit_matchers, parse_shortlink, parse_frontpage, parse_subreddit_path,
      hns, contains_false_not_mem hns, hsub1, hsub2, hpost, hcomm]
  · intro hcomm
    rw [get_reddit_reduce url netloc path hp hne, hdom]
    simp only [Bool.not_true, Bool.false_eq_true, if_false]
    rw [hseg]
    simp [run_reddit_matchers, parse_shortlink, parse_frontpage, parse_subreddit_path,
      hns, contains_false_not_mem hns, hsub1, hsub2, hpost, hcomm]

/-- C1 witness: the amended statement on a concrete comment permalink, and on
the same path shape with a sixth segment that fails the comment-id shape. -/
theorem c1_witness :
    pyUrlparse (pyStrip c1GoodUrl) =
      .ok ⟨"old.reddit.com", "/r/nvidia/comments/abc12/slug/abcdef1"⟩
    ∧ get_reddit_id_from_url c1GoodUrl =
        .ok ⟨.comment, c1GoodUrl, some "nvidia", none, some "abc12", some "abcdef1"⟩
    ∧ pyUrlparse (pyStrip c1PostUrl) =
      .ok ⟨"old.reddit.com", "/r/nvidia/comments/abc12/slug/ab"⟩
    ∧ get_reddit_id_from_url c1PostUrl =
        .ok ⟨.post, c1PostUrl, some "nvidia", none, some "abc12", none⟩ := by
  refine ⟨rfl, ?_, rfl, ?_⟩
  · exact (c1_comment_permalink c1GoodUrl "old.reddit.com"
      "/r/nvidia/comments/abc12/slug/abcdef1" "nvidia" "abc12" "slug" "abcdef1"
      rfl (Or.inr rfl) rfl (by decide) (by decide) rfl).1 rfl
  · exact (c1_comment_permalink c1PostUrl "old.reddit.com"
      "/r/nvidia/comments/abc12/slug/ab" "nvidia" "abc12" "slug" "ab"
      rfl (Or.inr rfl) rfl (by decide) (by decide) rfl).2 rfl

/-- Every run of the matcher loop either returns a locator, exactly when the
failure condition is false, or raises the scraper error, exactly when the
failure condition is true; in particular it never raises a ValueError. -/
theorem run_matchers_cases (n : String) (segs : List String) (url : String) :
    isScraperErr (run_reddit_matchers n segs url) = matchersFail n segs
    ∧ isOkE (run_reddit_matchers n segs url) = !matchersFail n segs := by
  by_cases hs : SHORTLINK_HOSTS.contains n = true
  · have hm : n ∈ SHORTLINK_HOSTS := List.mem_of_elem_eq_true hs
    rw [run_matchers_short n segs url hs]
    cases hps : postIdShape (segs.headD "")
    · rw [List.headD_eq_head?] at hps
      constructor
      · simp [hps, isScraperErr, matchersFail, hm]
      · simp [hps, isOkE, matchersFail, hm]
    · rw [List.headD_eq_head?] at hps
      constructor
      · simp [hps, isScraperErr, matchersFail, hm]
      · simp [hps, isOkE, matchersFail, hm]
  · have hs' : SHORTLINK_HOSTS.contains n = false := by
      cases hc : SHORTLINK_HOSTS.contains n
      · rfl
      · exact absurd hc hs
    have hnm := contains_false_not_mem hs'
    cases segs with
    | nil =>
        constructor
        · simp [run_reddit_matchers, parse_shortlink, parse_frontpage, hnm,
            isScraperErr, matchersFail, subIdCheckFail]
        · simp [run_reddit_matchers, parse_shortlink, parse_frontpage, hnm,
            isOkE, matchersFail, subIdCheckFail]
    | cons s0 rest =>
        cases rest with
        | nil =>
            constructor
            · simp [run_reddit_matchers, parse_shortlink, parse_frontpage,
                parse_subreddit_path, parse_user_path, hnm, isScraperErr, matchersFail,
                subIdCheckFail, subredditAccepts, userAccepts]
            · simp [run_reddit_matchers, parse_shortlink, parse_frontpage,
                parse_subreddit_path, parse_user_path, hnm, isOkE, matchersFail,
                subIdCheckFail, subredditAccepts, userAccepts]
        | cons s1 rest2 =>
            by_cases hr : s0 = "r"
            · subst hr
              by_cases hpop : toLowerStr s1 = "popular"
              · constructor
                · simp [run_reddit_matchers, parse_shortlink, parse_frontpage,
                    parse_subreddit_path, hnm, hpop, isScraperErr, matchersFail,
                    subIdCheckFail, subredditAccepts, userAccepts]
                · simp [run_reddit_matchers, parse_shortlink, parse_frontpage,
                    parse_subreddit_path, hnm, hpop, isOkE, matchersFail,
                    subIdCheckFail, subredditAccepts, userAccepts]
              · by_cases hall : toLowerStr s1 = "all"
                · constructor
                  · simp [run_reddit_matchers, parse_shortlink, parse_frontpage,
                      parse_subreddit_path, hnm, hpop, hall, isScraperErr, matchersFail,
                      subIdCheckFail, subredditAccepts, userAccepts]
                  · simp [run_reddit_matchers, parse_shortlink, parse_frontpage,
                      parse_subreddit_path, hnm, hpop, hall, isOkE, matchersFail,
                      subIdCheckFail, subredditAccepts, userAccepts]
                · cases rest2 with
                  | nil =>
                      constructor
                      · simp [run_reddit_matchers, parse_shortlink, parse_frontpage,
                          parse_subreddit_path, hnm, hpop, hall, isScraperErr, matchersFail,
                          subIdCheckFail, subredditAccepts, userAccepts]
                      · simp [run_reddit_matchers, parse_shortlink, parse_frontpage,
                          parse_subreddit_path, hnm, hpop, hall, isOkE, matchersFail,
                          subIdCheckFail, subredditAccepts, userAccepts]
                  | cons s2 rest3 =>
                      cases rest3 with
                      | nil =>
                          constructor
                          · simp [run_reddit_matchers, parse_shortlink, parse_frontpage,
                              parse_subreddit_path, hnm, hpop, hall, isScraperErr,
                              matchersFail, subIdCheckFail, subredditAccepts, userAccepts]
                          · simp [run_reddit_matchers, parse_shortlink, parse_frontpage,
                              parse_subreddit_path, hnm, hpop, hall, isOkE,
                              matchersFail, subIdCheckFail, subredditAccepts, userAccepts]
                      | cons s3 rest4 =>
                          by_cases hcom : s2 = "comments"
                          · subst hcom
                            cases hps3 : postIdShape s3
                            · constructor
                              · simp [run_reddit_matchers, parse_shortlink, parse_frontpage,
                                  parse_subreddit_path, hnm, hpop, hall, hps3, isScraperErr,
                                  matchersFail, subIdCheckFail, subredditAccepts, userAccepts]
                              · simp [run_reddit_matchers, parse_shortlink, parse_frontpage,
                                  parse_subreddit_path, hnm, hpop, hall, hps3, isOkE,
                                  matchersFail, subIdCheckFail, subredditAccepts, userAccepts]
                            · constructor
                              · simp [run_reddit_matchers, parse_shortlink, parse_frontpage,
                                  parse_subreddit_path, hnm, hpop, hall, hps3, isScraperErr,
                                  matchersFail, subIdCheckFail, subredditAccepts, userAccepts]
                              · simp [run_reddit_matchers, parse_shortlink, parse_frontpage,
                                  parse_subreddit_path, hnm, hpop, hall, hps3, isOkE,
                                  matchersFail, subIdCheckFail, subredditAccepts, userAccepts]
                          · constructor
                            · simp [run_reddit_matchers, parse_shortlink, parse_frontpage,
                                parse_subreddit_path, hnm, hpop, hall, hcom, isScraperErr,
                                matchersFail, subIdCheckFail, subredditAccepts, userAccepts]
                            · simp [run_reddit_matchers, parse_shortlink, parse_frontpage,
                                parse_subreddit_path, hnm, hpop, hall, hcom, isOkE,
                                matchersFail, subIdCheckFail, subredditAccepts, userAccepts]
            · by_cases hu1 : s0 = "user"
              · subst hu1
                constructor
                · simp [run_reddit_matchers, parse_shortlink, parse_frontpage,
                    parse_subreddit_path, parse_user_path, hnm, isScraperErr, matchersFail,
                    subIdCheckFail, subredditAccepts, userAccepts]
                · simp [run_reddit_matchers, parse_shortlink, parse_frontpage,
                    parse_subreddit_path, parse_user_path, hnm, isOkE, matchersFail,
                    subIdCheckFail, subredditAccepts, userAccepts]
              · by_cases hu2 : s0 = "u"
                · subst hu2
                  constructor
                  · simp [run_reddit_matchers, parse_shortlink, parse_frontpage,
                      parse_subreddit_path, parse_user_path, hnm, isScraperErr, matchersFail,
                      subIdCheckFail, subredditAccepts, userAccepts]
                  · simp [run_reddit_matchers, parse_shortlink, parse_frontpage,
                      parse_subreddit_path, parse_user_path, hnm, isOkE, matchersFail,
                      subIdCheckFail, subredditAccepts, userAccepts]
                · constructor
                  · simp [run_reddit_matchers, parse_shortlink, parse_frontpage,
                      parse_subreddit_path, parse_user_path, hnm, hr, hu1, hu2, isScraperErr,
                      matchersFail, subIdCheckFail, subredditAccepts, userAccepts]
                  · simp [run_reddit_matchers, parse_shortlink, parse_frontpage,
                      parse_subreddit_path, parse_user_path, hnm, hr, hu1, hu2, isOkE,
                      matchersFail, subIdCheckFail, subredditAccepts, userAccepts]

/-- C3 (amended): among inputs the URL splitter itself accepts, the
classifier raises its ClassificationError exactly when the stripped input is
empty, the normalized host is not a reddit or shortlink host, a required id
segment has the wrong shape, or no path matcher accepts; in every other such
case it returns a locator; and a failed domain check yields the fixed domain
error before any segment is examined.  Inputs the splitter rejects
(unbalanced bracket hosts) propagate its ValueError instead. -/
theorem c3_classification_error_iff (url netloc path : String)
    (hp : pyUrlparse (pyStrip url) = .ok ⟨netloc, path⟩) :
    isScraperErr (get_reddit_id_from_url url) = classifyFailCond (pyStrip url) netloc path
    ∧ isOkE (get_reddit_id_from_url url) = !classifyFailCond (pyStrip url) netloc path
    ∧ (parse_reddit_domain netloc = false → pyStrip url ≠ "" →
        get_reddit_id_from_url url = .error (.scraper "URL does not belong to reddit")) := by
  by_cases hne : pyStrip url = ""
  · refine ⟨?_, ?_, ?_⟩
    · simp [get_reddit_id_from_url, hne, isScraperErr, classifyFailCond]
    · simp [get_reddit_id_from_url, hne, isOkE, classifyFailCond]
    · intro _ hne2
      exact absurd hne hne2
  · rw [get_reddit_reduce url netloc path hp hne]
    cases hdom : parse_reddit_domain netloc
    · refine ⟨?_, ?_, fun _ _ => by simp⟩
      · simp [isScraperErr, classifyFailCond, hne, hdom]
      · simp [isOkE, classifyFailCond, hne, hdom]
    · simp only [Bool.not_true, Bool.false_eq_true, if_false]
      obtain ⟨h1, h2⟩ := run_matchers_cases (normalize_netloc netloc) (split_path path) url
      refine ⟨?_, ?_, ?_⟩
      · rw [h1]
        simp [classifyFailCond, hne, hdom]
      · rw [h2]
        simp [classifyFailCond, hne, hdom]
      · intro hcontra _
        exact absurd hcontra (by simp)

/-- C3 counterexample: a URL whose host the URL splitter rejects makes the
classifier raise the propagated ValueError, not a ClassificationError, even
though its host is not a reddit host. -/
theorem c3_counterexample :
    get_reddit_id_from_url "https://[" = .error (.valueError "Invalid IPv6 URL")
    ∧ isScraperErr (get_reddit_id_from_url "https://[") = false
    ∧ isOkE (get_reddit_id_from_url "https://[") = false :=
  ⟨rfl, rfl, rfl⟩

/-- C3 witness: the characterization applied to the spec example of a
non-reddit URL. -/
theorem c3_witness :
    pyUrlparse (pyStrip "https://example.com/foo") = .ok ⟨"example.com", "/foo"⟩
    ∧ isScraperErr (get_reddit_id_from_url "https://example.com/foo") =
        classifyFailCond (pyStrip "https://example.com/foo") "example.com" "/foo"
    ∧ classifyFailCond (pyStrip "https://example.com/foo") "example.com" "/foo" = true :=
  ⟨rfl, (c3_classification_error_iff "https://example.com/foo" "example.com" "/foo" rfl).1,
    rfl⟩

/-! ## Lemmas: the recursion budget of the comment builder is irrelevant -/

theorem hsize_pos (n : HNode) : 1 ≤ hsize n := by
  cases n with
  | text s => simp [hsize]
  | elem t a cs => simp [hsize]

theorem mem_hsizeL_le (l : List HNode) (x : HNode) (h : x ∈ l) : hsize x ≤ hsizeL l := by
  induction l with
  | nil => simp at h
  | cons c cs ih =>
      rcases List.mem_cons.1 h with h | h
      · subst h
        simp [hsizeL]
      · have := ih h
        simp [hsizeL]
        omega

mutual
theorem findDesc1_hsize (a p : HNode → Bool) (b : Bool) (n m : HNode)
    (h : findDesc1 a p b n = some m) :
    hsize m ≤ hsize n ∧ (b = false → hsize m < hsize n) := by
  cases n with
  | text s =>
      simp only [findDesc1] at h
      split at h
      · cases h
        refine ⟨le_refl _, ?_⟩
        intro hb
        subst hb
        simp_all
      · simp_all
  | elem t at_ cs =>
      simp only [findDesc1] at h
      split at h
      · cases h
        refine ⟨le_refl _, ?_⟩
        intro hb
        subst hb
        simp_all
      · obtain ⟨c, hc, hle⟩ := findDesc1L_hsize a p _ cs m h
        have h2 := mem_hsizeL_le cs c hc
        have h3 : hsize (HNode.elem t at_ cs) = 1 + hsizeL cs := by simp [hsize]
        exact ⟨by omega, fun _ => by omega⟩

theorem findDesc1L_hsize (a p : HNode → Bool) (b : Bool) (l : List HNode) (m : HNode)
    (h : findDesc1L a p b l = some m) : ∃ c ∈ l, hsize m ≤ hsize c := by
  cases l with
  | nil => simp [findDesc1L] at h
  | cons c cs =>
      simp only [findDesc1L] at h
      cases hc : findDesc1 a p b c with
      | some m' =>
          rw [hc] at h
          cases h
          exact ⟨c, List.mem_cons_self _ _, (findDesc1_hsize a p b c m hc).1⟩
      | none =>
          rw [hc] at h
          obtain ⟨c', hc', hle⟩ := findDesc1L_hsize a p b cs m h
          exact ⟨c', List.mem_cons_of_mem _ hc', hle⟩
end

theorem direct_children_hsize (container x : HNode)
    (h : x ∈ get_direct_comment_children container) : hsize x < hsize container := by
  simp only [get_direct_comment_children] at h
  have hx : x ∈ container.childNodes := (List.mem_filter.1 h).1
  cases container with
  | text s => simp [HNode.childNodes] at hx
  | elem t a cs =>
      simp only [HNode.childNodes] at hx
      have := mem_hsizeL_le cs x hx
      have h3 : hsize (HNode.elem t a cs) = 1 + hsizeL cs := by simp [hsize]
      omega

/-- The comment builder does not depend on the recursion budget once the
budget covers the node size: the fuel embedding computes the recursion of
the source exactly. -/
theorem parse_comment_fuel_irrelevant :
    ∀ (f1 f2 : Nat) (node : HNode) (pid : Option String) (d : Nat),
      hsize node ≤ f1 → hsize node ≤ f2 →
      parse_comment_node_fuel f1 node pid d = parse_comment_node_fuel f2 node pid d := by
  intro f1
  induction f1 with
  | zero =>
      intro f2 node pid d h1 h2
      have := hsize_pos node
      omega
  | succ n ih =>
      intro f2 node pid d h1 h2
      cases f2 with
      | zero =>
          have := hsize_pos node
          omega
      | succ m =>
          simp only [parse_comment_node_fuel]
          by_cases hmc : attrGet node "data-type" = some "morechildren"
          · simp [hmc]
          · rw [if_neg hmc, if_neg hmc]
            cases hctx : build_comment_context node with
            | none => simp [hctx]
            | some ctx =>
                simp only [hctx]
                cases hcont : findDesc1 (selTagClasses "div" ["child"])
                    (selTagClasses "div" ["sitetable"]) false node with
                | none => simp [hcont]
                | some container =>
                    simp only [hcont]
                    have hcsize : hsize container < hsize node :=
                      (findDesc1_hsize _ _ _ _ _ hcont).2 rfl
                    have hcongr : (get_direct_comment_children container).filterMap
                          (fun child => parse_comment_node_fuel n child pid (d + 1)) =
                        (get_direct_comment_children container).filterMap
                          (fun child => parse_comment_node_fuel m child pid (d + 1)) := by
                      apply List.filterMap_congr
                      intro x hx
                      have hx1 : hsize x < hsize container := direct_children_hsize _ _ hx
                      exact ih m x pid (d + 1) (by omega) (by omega)
                    rw [hcongr]

/-- The budget used by parse_comment_node is always sufficient. -/
theorem parse_comment_node_fuel_spec (fuel : Nat) (node : HNode) (pid : Option String)
    (d : Nat) (h : hsize node ≤ fuel) :
    parse_comment_node_fuel fuel node pid d = parse_comment_node node pid d :=
  parse_comment_fuel_irrelevant fuel (hsize node) node pid d h (le_refl _)
